import Mathlib

/-!
Verification of the InsightMate data-understanding pipeline.

This file gives a shallow embedding of the core of the backend
(`data_cleaning_agent.py`, `analysis_service.py`, `nlg_service.py`,
`conversational_agent.py`, and the chart-data derivation) and proves or
refutes the frozen behavioural claims about it.

Modelling conventions:
* A pandas `DataFrame` is a list of named, typed columns (`Table` below);
  cell values are `Option`-wrapped, `none` standing for NaN/None/NaT.
* Python/numpy float arithmetic is modelled exactly over `ℚ`; the one
  genuinely irrational quantity (a standard deviation, and Pearson r)
  is modelled over `ℝ`.
* A float NaN that can flow through a JSON-like payload is modelled by an
  explicit `nan` constructor of the payload type.
* External library parsers (`pd.to_numeric`, `pd.to_datetime`) are modelled
  by simple executable parsers with the same success/failure behaviour on
  the inputs relevant to the claims.
-/

namespace InsightMate

/-! ## Basic rational-number utilities (pandas semantics) -/

/-- Stable insertion into a list sorted by `≤` on the key: an element is
placed after all existing elements whose key is `≤` its own. -/
def insertLe (le : α → α → Bool) (x : α) : List α → List α
| [] => [x]
| h :: t => if le x h then x :: h :: t else h :: insertLe le x t

/-- Stable insertion sort (models pandas sorting where tie order is
irrelevant to the claims; stability fixes tie order deterministically). -/
def sortByLe (le : α → α → Bool) : List α → List α
| [] => []
| h :: t => insertLe le h (sortByLe le t)

/-- Sort a list of rationals ascending. -/
def sortQ (l : List ℚ) : List ℚ := sortByLe (fun a b => decide (a ≤ b)) l

/-- `pandas` mean of a non-empty list (sum divided by length). -/
def meanQ (l : List ℚ) : ℚ := l.sum / l.length

/-- `pandas` median: middle element of the sorted list, or the average of the
two middle elements; `none` (NaN) on the empty list. -/
def medianQ (l : List ℚ) : Option ℚ :=
  let s := sortQ l
  let n := s.length
  if n = 0 then none
  else if n % 2 = 1 then some (s.getD (n / 2) 0)
  else some ((s.getD (n / 2 - 1) 0 + s.getD (n / 2) 0) / 2)

/-- `pandas` linear-interpolation quantile on an already sorted non-empty
list: with `h = (n-1)·p`, the result is `v⌊h⌋ + (h-⌊h⌋)·(v⌊h⌋₊₁ - v⌊h⌋)`. -/
def quantileSorted (s : List ℚ) (p : ℚ) : ℚ :=
  let n := s.length
  let h : ℚ := ((n : ℚ) - 1) * p
  let i : ℕ := (Int.floor h).toNat
  let lo := s.getD i 0
  let hi := s.getD (i + 1) lo
  lo + (h - (i : ℚ)) * (hi - lo)

/-- Quantile of an unsorted list (`Series.quantile`, NaN values dropped by
the caller); `none` (NaN) on the empty list. -/
def quantileQ (l : List ℚ) (p : ℚ) : Option ℚ :=
  if l = [] then none else some (quantileSorted (sortQ l) p)

/-- Centered sum of squares `Σ (x - mean)²` of a list. -/
def cssQ (l : List ℚ) : ℚ := (l.map (fun x => (x - meanQ l) ^ 2)).sum

/-! ## The table model

A pandas `DataFrame` is an ordered list of named columns.  Each column has a
dtype: `numeric` (int64/float64), `text` (object), `boolean` and `datetime`.
`none` cells are NaN (numeric), None (object), pandas NaT (datetime). -/

/-- One typed column of a table. -/
inductive Col where
  | numeric (vals : List (Option ℚ))
  | text (vals : List (Option String))
  | boolean (vals : List (Option Bool))
  | datetime (vals : List (Option ℤ))
deriving DecidableEq

/-- A table: ordered association of column names to columns. -/
abbrev Table := List (String × Col)

/-- Number of cells in a column. -/
def Col.size : Col → ℕ
  | .numeric v => v.length
  | .text v => v.length
  | .boolean v => v.length
  | .datetime v => v.length

/-- Whether the column has object (text) dtype. -/
def Col.isText : Col → Bool
  | .text _ => true
  | _ => false

/-- Row count of a table (`len(df)`); columns of a real frame all have the
same length, so we take the maximum for totality. -/
def rowCount (t : Table) : ℕ := (t.map (fun c => c.2.size)).foldr max 0

/-- The numeric columns of a table in order (`select_dtypes(np.number)`). -/
def numericCols (t : Table) : List (String × List (Option ℚ)) :=
  t.filterMap (fun nc => match nc.2 with
    | .numeric v => some (nc.1, v)
    | _ => none)

/-- Names of the numeric columns. -/
def numericColNames (t : Table) : List String := (numericCols t).map (·.1)

/-- Values of a named numeric column (first match). -/
def numericColValues (t : Table) (c : String) : Option (List (Option ℚ)) :=
  (numericCols t).lookup c

/-- The non-null values of a numeric column (`dropna`). -/
def dropNone (v : List (Option ℚ)) : List ℚ := v.filterMap id

/-! ## Models of the external value parsers

`pd.to_numeric` / `pd.to_datetime` are external library calls; they are
modelled by executable parsers with the same accept/reject behaviour on the
string shapes the claims exercise (plain decimals, ISO `YYYY-MM[-DD]`
dates); arbitrary words such as "yes" or "maybe" are rejected by both. -/

/-- Decimal digits to a natural number. -/
def digitsToNat (cs : List Char) : ℕ :=
  cs.foldl (fun acc c => acc * 10 + (c.toNat - 48)) 0

/-- Model of the element-wise `pd.to_numeric` parse: optional sign, digits,
optional fractional part. -/
def parseNum (s : String) : Option ℚ :=
  let cs := s.data
  let signed : ℚ × List Char :=
    match cs with
    | '-' :: r => (-1, r)
    | '+' :: r => (1, r)
    | r => (1, r)
  let intPart := signed.2.takeWhile Char.isDigit
  let rest := signed.2.dropWhile Char.isDigit
  if intPart = [] then none
  else
    match rest with
    | [] => some (signed.1 * (digitsToNat intPart : ℚ))
    | '.' :: frac =>
      if frac ≠ [] ∧ frac.all Char.isDigit then
        some (signed.1 *
          ((digitsToNat intPart : ℚ) + (digitsToNat frac : ℚ) / (10 ^ frac.length)))
      else none
    | _ => none

/-- All-digits string to a natural number. -/
def parseNatAll (s : String) : Option ℕ :=
  if s.data ≠ [] ∧ s.data.all Char.isDigit then some (digitsToNat s.data) else none

/-- Model of the element-wise `pd.to_datetime` parse for ISO `YYYY-MM` and
`YYYY-MM-DD` strings, returning a value monotone in calendar order. -/
def parseDate (s : String) : Option ℤ :=
  match s.splitOn "-" with
  | [y, m] => do
    let yv ← parseNatAll y
    let mv ← parseNatAll m
    if y.length = 4 ∧ 1 ≤ mv ∧ mv ≤ 12 then some ((yv : ℤ) * 372 + mv * 31) else none
  | [y, m, d] => do
    let yv ← parseNatAll y
    let mv ← parseNatAll m
    let dv ← parseNatAll d
    if y.length = 4 ∧ 1 ≤ mv ∧ mv ≤ 12 ∧ 1 ≤ dv ∧ dv ≤ 31 then
      some ((yv : ℤ) * 372 + (mv : ℤ) * 31 + dv)
    else none
  | _ => none

/-- Lower-case a string (each character). -/
def lowerStr (s : String) : String := String.mk (s.data.map Char.toLower)

/-- Substring containment over character lists. -/
def containsSub (pat s : List Char) : Bool :=
  (List.range (s.length + 1)).any (fun i => pat.isPrefixOf (s.drop i))

/-- `str(x)` model for the date-probe joins: the string itself for text
cells, a decimal rendering for the other dtypes. -/
def cellStr : Col → ℕ → String
  | .numeric v, i => toString (v.getD i none |>.getD 0)
  | .text v, i => (v.getD i none).getD "nan"
  | .boolean v, i => if (v.getD i none).getD false then "True" else "False"
  | .datetime v, i => toString ((v.getD i none).getD 0)

/-- The substring probes used by the date heuristics. -/
def datePatterns : List String :=
  ["/", "-", ":", "jan", "feb", "mar", "apr", "may", "jun",
   "jul", "aug", "sep", "oct", "nov", "dec", "202", "201", "200"]

/-- `_is_datetime_column`: take up to ten non-null values, join them with
spaces, look for a date-like substring, then trial-parse the sample
(`pd.to_datetime(sample, errors='raise')`). -/
def isDatetimeColumn (vals : List (Option String)) : Bool :=
  let sample := (vals.filterMap id).take 10
  if sample.isEmpty then false
  else
    let sampleStr := lowerStr (String.intercalate " " sample)
    if datePatterns.any (fun p => containsSub p.data sampleStr.data) then
      sample.all (fun s => (parseDate s).isSome)
    else false

/-! ## Cleaning stage: the six repair rules (`DataCleaningAgent`) -/

/-- Keep the first occurrence of each distinct element. -/
def dedupKeepFirst [DecidableEq α] : List α → List α
  | [] => []
  | h :: t => h :: dedupKeepFirst (t.filter (fun x => x ≠ h))
termination_by l => l.length
decreasing_by
  simp only [List.length_cons]
  exact Nat.lt_succ_of_le (List.length_filter_le _ _)

/-- `Series.mode().iloc[0]`: the lexicographically smallest among the most
frequent values ("Unknown" if there are none). -/
def modeString (l : List String) : String :=
  let uniq := dedupKeepFirst l
  let maxCnt := (uniq.map (fun v => l.count v)).foldr max 0
  match uniq.filter (fun v => l.count v = maxCnt) with
  | [] => "Unknown"
  | h :: t => t.foldl (fun m x => if x < m then x else m) h

/-- Forward fill carrying the last non-null value. -/
def ffillGo (last : Option α) : List (Option α) → List (Option α)
  | [] => []
  | h :: t =>
    match h with
    | some v => some v :: ffillGo (some v) t
    | none => last :: ffillGo last t

/-- `fillna(method='ffill')`. -/
def ffill (l : List (Option α)) : List (Option α) := ffillGo none l

/-- `fillna(method='bfill')`. -/
def bfill (l : List (Option α)) : List (Option α) := (ffill l.reverse).reverse

/-- Report of the missing-value rule: per-column missing counts and the
imputation method used (`columns_removed` is always empty in the source). -/
structure MissingReport where
  missingCounts : List (String × ℕ)
  imputationMethods : List (String × String)
  columnsRemoved : List String
deriving DecidableEq

/-- `_handle_missing_values` on one column: numeric → median fill (a NaN
median, i.e. `none`, fills nothing), text → mode fill with "Unknown"
fallback, other dtypes → forward then backward fill.  Returns the new
column and, when the column had missing values, its count and method. -/
def handleMissingValuesCol (c : Col) : Col × Option (ℕ × String) :=
  match c with
  | .numeric vals =>
    let m := vals.countP (fun o => o.isNone)
    if 0 < m then
      let med := medianQ (dropNone vals)
      (.numeric (vals.map (fun o => match o with | some v => some v | none => med)),
       some (m, "median"))
    else (c, none)
  | .text vals =>
    let m := vals.countP (fun o => o.isNone)
    if 0 < m then
      let mv := modeString (vals.filterMap id)
      (.text (vals.map (fun o => match o with | some v => some v | none => some mv)),
       some (m, "mode"))
    else (c, none)
  | .boolean vals =>
    let m := vals.countP (fun o => o.isNone)
    if 0 < m then (.boolean (bfill (ffill vals)), some (m, "forward_backward_fill"))
    else (c, none)
  | .datetime vals =>
    let m := vals.countP (fun o => o.isNone)
    if 0 < m then (.datetime (bfill (ffill vals)), some (m, "forward_backward_fill"))
    else (c, none)

/-- `_handle_missing_values` over the whole table. -/
def handleMissingValues (t : Table) : Table × MissingReport :=
  let results := t.map (fun nc => (nc.1, handleMissingValuesCol nc.2))
  (results.map (fun r => (r.1, r.2.1)),
   { missingCounts := results.filterMap (fun r => r.2.2.map (fun p => (r.1, p.1)))
     imputationMethods := results.filterMap (fun r => r.2.2.map (fun p => (r.1, p.2)))
     columnsRemoved := [] })

/-- One typed table cell, for row-wise duplicate comparison. -/
inductive Cell where
  | num (q : Option ℚ)
  | txt (s : Option String)
  | bool (b : Option Bool)
  | date (d : Option ℤ)
deriving DecidableEq

/-- Cell at a row index. -/
def Col.cellAt : Col → ℕ → Cell
  | .numeric v, i => .num (v.getD i none)
  | .text v, i => .txt (v.getD i none)
  | .boolean v, i => .bool (v.getD i none)
  | .datetime v, i => .date (v.getD i none)

/-- The `i`-th row of a table. -/
def rowAt (t : Table) (i : ℕ) : List Cell := t.map (fun nc => nc.2.cellAt i)

/-- Indices of rows kept by `drop_duplicates` (first occurrences, in order;
NaN cells compare equal, as in pandas `duplicated`). -/
def keptIndices (t : Table) : List ℕ :=
  (List.range (rowCount t)).filter
    (fun i => decide (∀ j ∈ List.range i, rowAt t j ≠ rowAt t i))

/-- Restrict a column to a list of row indices. -/
def Col.selectRows (c : Col) (idx : List ℕ) : Col :=
  match c with
  | .numeric v => .numeric (idx.map (fun i => v.getD i none))
  | .text v => .text (idx.map (fun i => v.getD i none))
  | .boolean v => .boolean (idx.map (fun i => v.getD i none))
  | .datetime v => .datetime (idx.map (fun i => v.getD i none))

/-- Report of the duplicate rule. -/
structure DupReport where
  duplicatesRemoved : ℕ
  percentageRemoved : ℚ
deriving DecidableEq

/-- `_handle_duplicates`: drop exact-duplicate rows keeping the first
occurrence; report count and percentage (0 when the table is empty). -/
def handleDuplicates (t : Table) : Table × DupReport :=
  let n := rowCount t
  let kept := keptIndices t
  let removed := n - kept.length
  (t.map (fun nc => (nc.1, nc.2.selectRows kept)),
   { duplicatesRemoved := removed
     percentageRemoved := if 0 < n then (removed : ℚ) / n * 100 else 0 })

/-- First quartile (`Series.quantile(0.25)`) of the non-null values. -/
def q1Of (nn : List ℚ) : ℚ := quantileSorted (sortQ nn) (1/4)

/-- Third quartile (`Series.quantile(0.75)`) of the non-null values. -/
def q3Of (nn : List ℚ) : ℚ := quantileSorted (sortQ nn) (3/4)

/-- Lower outlier bound `Q1 - 1.5·IQR`. -/
def lowerBoundOf (nn : List ℚ) : ℚ := q1Of nn - 3/2 * (q3Of nn - q1Of nn)

/-- Upper outlier bound `Q3 + 1.5·IQR`. -/
def upperBoundOf (nn : List ℚ) : ℚ := q3Of nn + 3/2 * (q3Of nn - q1Of nn)

/-- Per-column outlier findings. -/
structure OutlierColInfo where
  count : ℕ
  percentage : ℚ
  lower : ℚ
  upper : ℚ
deriving DecidableEq

/-- Report of the outlier rule. -/
structure OutlierReport where
  outliersDetected : List (String × OutlierColInfo)
  outliersHandled : List (String × String)
deriving DecidableEq

/-- `_handle_outliers` on one numeric column: IQR bounds from the non-null
values; values outside the bounds are counted and, when any exist, every
value is clipped into `[lower, upper]`.  An all-null column has NaN
quantiles, so every comparison is false and nothing happens. -/
def handleOutliersCol (nrows : ℕ) (vals : List (Option ℚ)) :
    List (Option ℚ) × Option OutlierColInfo :=
  let nn := dropNone vals
  if nn = [] then (vals, none)
  else
    let L := lowerBoundOf nn
    let U := upperBoundOf nn
    let cnt := vals.countP (fun o =>
      match o with
      | some x => decide (x < L ∨ U < x)
      | none => false)
    if 0 < cnt then
      (vals.map (Option.map (fun x => min (max x L) U)),
       some ⟨cnt, (cnt : ℚ) / nrows * 100, L, U⟩)
    else (vals, none)

/-- `_handle_outliers` over the whole table (numeric columns only). -/
def handleOutliers (t : Table) : Table × OutlierReport :=
  let n := rowCount t
  let results := t.map (fun nc =>
    match nc.2 with
    | .numeric vals =>
      let r := handleOutliersCol n vals
      ((nc.1, Col.numeric r.1), r.2.map (fun i => (nc.1, i)))
    | c => ((nc.1, c), none))
  (results.map (·.1),
   { outliersDetected := results.filterMap (·.2)
     outliersHandled := (results.filterMap (·.2)).map (fun p => (p.1, "capped")) })

/-- The boolean-word vocabulary of the (unreachable) boolean branch. -/
def boolWordList : List String :=
  ["true", "false", "yes", "no", "1", "0", "t", "f", "y", "n"]

/-- The boolean-word mapping of the (unreachable) boolean branch. -/
def boolWordMap (s : String) : Option Bool :=
  [("true", true), ("false", false), ("yes", true), ("no", false),
   ("1", true), ("0", false), ("t", true), ("f", false),
   ("y", true), ("n", false)].lookup s

/-- Report of the type-coercion rule. -/
structure TypeReport where
  typeConversions : List (String × String)
  conversionErrors : List (String × String)
deriving DecidableEq

/-- `_fix_data_types` on one column, translated with the source's control
flow kept verbatim: the first branch fires for object dtype (numeric
coercion when >80% of the values parse, else datetime coercion when the
heuristic probe succeeds); the second branch re-tests the *same* condition
(`elif df[column].dtype == 'object'`), so the boolean-coercion branch it
guards is unreachable. -/
def fixDataTypesCol (c : Col) : Col × Option String :=
  if c.isText then
    match c with
    | .text vals =>
      let parsedCnt := (vals.filterMap id).countP (fun s => (parseNum s).isSome)
      if (vals.length : ℚ) * (8/10) < (parsedCnt : ℚ) then
        (.numeric (vals.map (fun o => o.bind parseNum)), some "object -> numeric")
      else if isDatetimeColumn vals then
        (.datetime (vals.map (fun o => o.bind parseDate)), some "object -> datetime")
      else (c, none)
    | _ => (c, none)
  else if c.isText then
    match c with
    | .text vals =>
      let uniq := dedupKeepFirst (vals.filterMap id)
      if uniq.length ≤ 2 ∧ uniq.all (fun v => boolWordList.contains (lowerStr v)) then
        (.boolean (vals.map (fun o => boolWordMap (lowerStr (o.getD "nan")))),
         some "object -> boolean")
      else (c, none)
    | _ => (c, none)
  else (c, none)

/-- `_fix_data_types` over the whole table. -/
def fixDataTypes (t : Table) : Table × TypeReport :=
  let results := t.map (fun nc => (nc.1, fixDataTypesCol nc.2))
  (results.map (fun r => (r.1, r.2.1)),
   { typeConversions := results.filterMap (fun r => r.2.2.map (fun s => (r.1, s)))
     conversionErrors := [] })

/-- Strip leading and trailing whitespace. -/
def stripStr (s : String) : String :=
  String.mk (((s.data.dropWhile Char.isWhitespace).reverse.dropWhile
    Char.isWhitespace).reverse)

/-- Collapse runs of whitespace to a single space (`\s+` → `' '`). -/
def collapseWS (prevSpace : Bool) : List Char → List Char
  | [] => []
  | c :: t =>
    if c.isWhitespace then
      if prevSpace then collapseWS true t else ' ' :: collapseWS true t
    else c :: collapseWS false t

/-- Trim, lower-case, collapse internal whitespace. -/
def normalizeText (s : String) : String :=
  String.mk (collapseWS false (lowerStr (stripStr s)).data)

/-- Report of the categorical-standardisation rule. -/
structure InconsistReport where
  standardizationApplied : List (String × String)
deriving DecidableEq

/-- `_handle_inconsistent_values`: every text column is cast to `str`
(a null becomes the literal string "nan", as `astype(str)` does), trimmed,
lower-cased, and internal whitespace runs are collapsed. -/
def handleInconsistentValues (t : Table) : Table × InconsistReport :=
  let results := t.map (fun nc =>
    match nc.2 with
    | .text vals =>
      ((nc.1, Col.text (vals.map (fun (o : Option String) =>
          some (normalizeText (o.getD "nan"))))),
       some (nc.1, "case_normalization_and_whitespace_removal"))
    | c => ((nc.1, c), none))
  (results.map (·.1), { standardizationApplied := results.filterMap (·.2) })

/-- Keep only digits, `.` and `-` (`[^\d.-]` removal). -/
def currencyClean (s : String) : String :=
  String.mk (s.data.filter (fun c => c.isDigit || c = '.' || c = '-'))

/-- Does the column name contain "price", "cost" or "amount"
(case-insensitive substring)? -/
def nameTriggersCurrency (name : String) : Bool :=
  ["price", "cost", "amount"].any (fun w => containsSub w.data (lowerStr name).data)

/-- Report of the formatting rule. -/
structure FormatReport where
  formattingFixes : List (String × String)
deriving DecidableEq

/-- `_fix_formatting`: text columns are cast to `str` and trimmed; columns
with a currency-like name additionally keep only digits, `.` and `-`. -/
def fixFormatting (t : Table) : Table × FormatReport :=
  let results := t.map (fun nc =>
    match nc.2 with
    | .text vals =>
      let stripped := vals.map (fun (o : Option String) => some (stripStr (o.getD "nan")))
      if nameTriggersCurrency nc.1 then
        ((nc.1, Col.text (stripped.map (Option.map currencyClean))),
         some (nc.1, "currency_cleaning"))
      else ((nc.1, Col.text stripped), none)
    | c => ((nc.1, c), none))
  (results.map (·.1), { formattingFixes := results.filterMap (·.2) })

/-! ## Cleaning stage: the dispatcher (`clean_data`)

A Python rule is a callable that mutates the frame object in place and
either returns `(df, report)` or raises.  A rule call is therefore modelled
as returning the state of the frame object at the moment the call ends
(normally or by the escape of an exception) together with either the report
or the error.  On failure the dispatcher's `cleaned_df` name keeps its
previous binding — but that binding refers to the same object the rule was
mutating, so the next rule receives the frame in whatever state the failing
rule left it.  No rollback of in-place mutation happens. -/

/-- One entry of the `cleaning_steps` list. -/
inductive Step (ρ : Type) where
  | ok (rule : String) (report : ρ)
  | failed (rule : String) (msg : String)
deriving DecidableEq

/-- The `clean_data` loop over an arbitrary rule list.  In both outcomes
the loop continues with the frame state the rule call left behind: on
success because `cleaned_df` is rebound to the returned frame, on failure
because the un-rebound `cleaned_df` still refers to the object the rule
was mutating when it raised. -/
def runRules (rules : List (String × (Table → Table × Except String ρ)))
    (t : Table) : Table × List (Step ρ) :=
  match rules with
  | [] => (t, [])
  | (name, f) :: rest =>
    match f t with
    | (t2, .ok r) =>
      let res := runRules rest t2
      (res.1, .ok name r :: res.2)
    | (t2, .error e) =>
      let res := runRules rest t2
      (res.1, .failed name e :: res.2)

/-- Tagged union of the six rule reports. -/
inductive RuleReport where
  | missing (r : MissingReport)
  | dups (r : DupReport)
  | outliers (r : OutlierReport)
  | types (r : TypeReport)
  | inconsistent (r : InconsistReport)
  | fmt (r : FormatReport)
deriving DecidableEq

/-- Wrap a total (never-raising) rule as a dispatcher rule. -/
def asRule (f : Table → Table × ρ) : Table → Table × Except String ρ :=
  fun t => ((f t).1, .ok (f t).2)

/-- The six concrete cleaning rules, in the source's fixed order. -/
def cleaningRules : List (String × (Table → Table × Except String RuleReport)) :=
  [("missing_values", asRule (fun t => let r := handleMissingValues t; (r.1, .missing r.2))),
   ("duplicates", asRule (fun t => let r := handleDuplicates t; (r.1, .dups r.2))),
   ("outliers", asRule (fun t => let r := handleOutliers t; (r.1, .outliers r.2))),
   ("data_types", asRule (fun t => let r := fixDataTypes t; (r.1, .types r.2))),
   ("inconsistent_values",
    asRule (fun t => let r := handleInconsistentValues t; (r.1, .inconsistent r.2))),
   ("formatting", asRule (fun t => let r := fixFormatting t; (r.1, .fmt r.2)))]

/-- The execution prefix of `_handle_missing_values` when the fill of the
second column raises: the source rule's per-column loop has already imputed
the first column in place when the exception escapes, so the frame object
carries that effect at the moment of the raise.  (Whether a given fill call
raises depends on the installed pandas — e.g. the `fillna(method='ffill')`
keyword used by the forward/backward-fill branch of the loop was removed in
pandas 3 and raises `TypeError` there — so the raise point is a scenario
parameter of this model rather than derivable from the unversioned source;
the mutation-before-raise structure is the source loop's.) -/
def missingValuesRaiseAfterFirst : Table → Table × Except String ρ
  | (n1, c1) :: rest => ((n1, (handleMissingValuesCol c1).1) :: rest, .error "TypeError")
  | [] => ([], .error "TypeError")

/-- A table with a missing value in a numeric first column (imputable by
the median branch) and a missing value in a datetime second column (the
forward/backward-fill branch whose `fillna(method=...)` call is the raise
point of the scenario above). -/
def tMissC2 : Table :=
  [("a", Col.numeric [none, some 2]), ("b", Col.datetime [none, some 3])]

/-- The raise-after-first-column scenario rule at the dispatcher's concrete
report type. -/
def missingValuesRaiseRR : Table → Table × Except String RuleReport :=
  missingValuesRaiseAfterFirst

/-- The aggregate cleaning report (summary fields omitted from the claims
are not modelled beyond the shape deltas). -/
structure CleaningReport where
  originalShape : ℕ × ℕ
  steps : List (Step RuleReport)
  finalShape : ℕ × ℕ
  rowsRemoved : ℤ
  columnsRemoved : ℤ
deriving DecidableEq

/-- `clean_data`: run the six rules in order and assemble the report. -/
def cleanData (t : Table) : Table × CleaningReport :=
  let res := runRules cleaningRules t
  (res.1,
   { originalShape := (rowCount t, t.length)
     steps := res.2
     finalShape := (rowCount res.1, res.1.length)
     rowsRemoved := (rowCount t : ℤ) - rowCount res.1
     columnsRemoved := (t.length : ℤ) - res.1.length })

/-! ## Insight/NLG stage (`NLGService`) — statistics sentence selection -/

/-- `_generate_statistics_insight`: the threshold ladder over the
coefficient of variation (`std/|mean|`, taken as 0 when the mean is 0) and
the skewness.  Source control flow: the variability branches return early
when `std > 0` and `cv` clears a threshold; otherwise the skew branches are
tried; otherwise no sentence. -/
def generateStatisticsInsight (column : String) (mean std skew : ℚ) : Option String :=
  let cv : ℚ := if mean ≠ 0 then std / |mean| else 0
  if 0 < std ∧ 1/2 < cv then
    some ("The " ++ column ++ " shows high variability with a standard deviation of "
      ++ toString std ++ ", indicating diverse values across your dataset.")
  else if 0 < std ∧ cv < 1/10 then
    some ("The " ++ column ++ " shows low variability with a standard deviation of "
      ++ toString std ++ ", suggesting consistent values.")
  else if 1 < |skew| then
    some ("The " ++ column ++ " is "
      ++ (if 0 < skew then "positively skewed" else "negatively skewed")
      ++ " with a skewness of " ++ toString skew
      ++ ", indicating an asymmetric distribution.")
  else if |skew| < 1/2 then
    some ("The " ++ column ++ " follows a relatively normal distribution with a skewness of "
      ++ toString skew ++ ".")
  else none

/-! ## Intent classifier (`ConversationalAgent`)

The nine query patterns are `\b(word|word|...)\b` regexes over the
lower-cased input; an alternation of plain words wrapped in word boundaries
matches exactly when some maximal word-character run of the input equals one
of the words, which is how matching is modelled here.  Word characters are
`[A-Za-z0-9_]` (the inputs of interest are ASCII). -/

/-- Regex word character (`\w`). -/
def isWordChar (c : Char) : Bool := c.isAlpha || c.isDigit || c = '_'

/-- Lower-cased character list of a message. -/
def lowerChars (s : String) : List Char := s.data.map Char.toLower

/-- Is there a word boundary just before index `i`?  (True when exactly one
of the neighbouring positions holds a word character; start/end count as
non-word.) -/
def boundaryAt (s : List Char) (i : ℕ) : Bool :=
  let before := if 0 < i then isWordChar (s.getD (i - 1) ' ') else false
  let here := if i < s.length then isWordChar (s.getD i ' ') else false
  before ≠ here

/-- Does `\bw\b` match at position `i`? -/
def wordMatchAt (s w : List Char) (i : ℕ) : Bool :=
  w.isPrefixOf (s.drop i) && boundaryAt s i && boundaryAt s (i + w.length)

/-- Does `\bw\b` match anywhere in `s`? -/
def containsWord (s : List Char) (w : String) : Bool :=
  (List.range (s.length + 1)).any (fun i => wordMatchAt s w.data i)

/-- The nine intent patterns of `query_patterns`, in dict order, as word
alternation lists (verbatim from the source regexes, including the
duplicated "summary"). -/
def queryPatterns : List (String × List String) :=
  [("trend", ["trend", "trends", "pattern", "patterns", "increase", "decrease",
              "growing", "declining"]),
   ("correlation", ["correlation", "correlate", "relationship", "related", "connection"]),
   ("anomaly", ["anomaly", "anomalies", "outlier", "outliers", "unusual", "strange", "odd"]),
   ("summary", ["summary", "summarize", "overview", "summary", "total", "average",
                "mean", "median"]),
   ("comparison", ["compare", "comparison", "versus", "vs", "difference", "different"]),
   ("forecast", ["forecast", "predict", "prediction", "future", "next", "upcoming"]),
   ("distribution", ["distribution", "spread", "range", "histogram", "frequency"]),
   ("top", ["top", "best", "highest", "maximum", "peak", "leading"]),
   ("bottom", ["bottom", "worst", "lowest", "minimum", "least", "poor"])]

/-- The intents whose pattern matches the lower-cased message, in dict
order (`detected_types`). -/
def detectedTypes (ml : List Char) : List String :=
  queryPatterns.filterMap (fun p => if p.2.any (containsWord ml) then some p.1 else none)

/-- Maximal word-character runs of the message (candidate tokens). -/
def wordTokens : List Char → List (List Char)
  | [] => []
  | c :: t =>
    if isWordChar c then
      (c :: t.takeWhile isWordChar) :: wordTokens (t.dropWhile isWordChar)
    else wordTokens t
termination_by l => l.length
decreasing_by
  all_goals simp only [List.length_cons]
  · exact Nat.lt_succ_of_le (List.dropWhile_suffix _).length_le
  · exact Nat.lt_succ_self _

/-- `\b([A-Za-z_][A-Za-z0-9_]*)\b` findall: the maximal tokens starting
with a letter or underscore. -/
def extractColumns (ml : List Char) : List String :=
  ((wordTokens ml).filter (fun tk =>
    match tk with
    | c :: _ => c.isAlpha || c = '_'
    | [] => false)).map (fun tk => String.mk tk)

/-- `\b(\d+(?:\.\d+)?)\b` findall over the message: scan left to right; at
a digit run preceded by a boundary, greedily take an optional fractional
part when the position after it is again a boundary (the fallback to the
integer part alone always succeeds because `.` is a non-word character). -/
def extractNumbers (prevWord : Bool) : List Char → List ℚ
  | [] => []
  | c :: t =>
    if c.isDigit && !prevWord then
      let d1 := c :: t.takeWhile Char.isDigit
      let rest := t.dropWhile Char.isDigit
      if rest.headD ' ' = '.' ∧ rest.tail.takeWhile Char.isDigit ≠ [] ∧
          ¬ isWordChar ((rest.tail.dropWhile Char.isDigit).headD ' ') then
        ((digitsToNat d1 : ℚ) +
            (digitsToNat (rest.tail.takeWhile Char.isDigit) : ℚ) /
              10 ^ (rest.tail.takeWhile Char.isDigit).length)
          :: extractNumbers true (rest.tail.dropWhile Char.isDigit)
      else if ¬ isWordChar (rest.headD ' ') then
        (digitsToNat d1 : ℚ) :: extractNumbers false rest
      else extractNumbers true rest
    else extractNumbers (isWordChar c) t
termination_by l => l.length
decreasing_by
  · have h1 : (t.dropWhile Char.isDigit).length ≤ t.length :=
      (List.dropWhile_suffix _).length_le
    have h2 : ((t.dropWhile Char.isDigit).tail.dropWhile Char.isDigit).length ≤
        (t.dropWhile Char.isDigit).tail.length :=
      (List.dropWhile_suffix _).length_le
    have h3 : (t.dropWhile Char.isDigit).tail.length ≤ (t.dropWhile Char.isDigit).length := by
      cases t.dropWhile Char.isDigit <;> simp
    simp only [List.length_cons]
    omega
  · have h1 : (t.dropWhile Char.isDigit).length ≤ t.length :=
      (List.dropWhile_suffix _).length_le
    simp only [List.length_cons]
    omega
  · have h1 : (t.dropWhile Char.isDigit).length ≤ t.length :=
      (List.dropWhile_suffix _).length_le
    simp only [List.length_cons]
    omega
  · simp only [List.length_cons]
    exact Nat.lt_succ_self _

/-- Try to match `\b(\d+)\s*unit s?\b` at position `i`; on success return
the digits. -/
def timeMatchAt (s : List Char) (unit : List Char) (i : ℕ) : Option ℕ :=
  if boundaryAt s i then
    let tl := s.drop i
    let d := tl.takeWhile Char.isDigit
    if d = [] then none
    else
      let afterD := tl.dropWhile Char.isDigit
      let afterWS := afterD.dropWhile Char.isWhitespace
      if unit.isPrefixOf afterWS then
        let afterU := afterWS.drop unit.length
        let j := i + d.length + (afterD.length - afterWS.length) + unit.length
        match afterU with
        | 's' :: _ =>
          if boundaryAt s (j + 1) then some (digitsToNat d) else none
        | _ => if boundaryAt s j then some (digitsToNat d) else none
      else none
  else none

/-- `re.search` of a time pattern: the first matching position wins. -/
def searchTime (s : List Char) (unit : String) : Option ℕ :=
  ((List.range (s.length + 1)).filterMap (timeMatchAt s unit.data)).head?

/-- The extracted parameters of `_extract_parameters`; an empty list /
`none` models an absent key. -/
structure QueryParams where
  columns : List String
  numbers : List ℚ
  days : Option ℕ
  weeks : Option ℕ
  months : Option ℕ
  years : Option ℕ
deriving DecidableEq

/-- Python dict truthiness of the parameters dict. -/
def QueryParams.nonempty (p : QueryParams) : Bool :=
  !p.columns.isEmpty || !p.numbers.isEmpty ||
    p.days.isSome || p.weeks.isSome || p.months.isSome || p.years.isSome

/-- `_extract_parameters` over the lower-cased message. -/
def extractParameters (ml : List Char) : QueryParams :=
  { columns := (extractColumns ml).take 5
    numbers := extractNumbers false ml
    days := searchTime ml "day"
    weeks := searchTime ml "week"
    months := searchTime ml "month"
    years := searchTime ml "year" }

/-- `_suggest_visualizations`: the fixed intent → chart-kind map with the
`['summary_table']` default. -/
def suggestVisualizations (queryType : String) : List String :=
  (([("trend", ["line_chart", "area_chart"]),
     ("correlation", ["scatter_plot", "heatmap"]),
     ("anomaly", ["scatter_plot", "box_plot"]),
     ("summary", ["bar_chart", "pie_chart"]),
     ("comparison", ["bar_chart", "grouped_bar_chart"]),
     ("forecast", ["line_chart", "area_chart"]),
     ("distribution", ["histogram", "box_plot"]),
     ("top", ["bar_chart", "horizontal_bar_chart"]),
     ("bottom", ["bar_chart", "horizontal_bar_chart"]),
     ("general", ["summary_table", "basic_charts"])] :
      List (String × List String)).lookup queryType).getD ["summary_table"]

/-- `_calculate_confidence`: base 0.5, +0.2 for a non-general type, +0.1
for any parameter, +0.1 for a non-empty visualization list, −0.1 when more
than one sub-type was detected; clamped into [0, 1]. -/
def calcConfidence (queryType : String) (subTypes : List String)
    (params : QueryParams) (viz : List String) : ℚ :=
  let c0 : ℚ := 1/2
  let c1 := c0 + (if queryType ≠ "general" then 1/5 else 0)
  let c2 := c1 + (if params.nonempty then 1/10 else 0)
  let c3 := c2 + (if viz ≠ [] then 1/10 else 0)
  let c4 := c3 - (if 1 < subTypes.length then 1/10 else 0)
  min 1 (max 0 c4)

/-- The result of `parse_query` (`sub_types = []` models an absent key). -/
structure ParsedQuery where
  originalMessage : String
  queryType : String
  subTypes : List String
  parameters : QueryParams
  visualizations : List String
  confidence : ℚ
deriving DecidableEq

/-- `parse_query`: detect intents, pick `general` / the single intent /
`complex`, extract parameters, suggest visualizations, score confidence. -/
def parseQuery (message : String) : ParsedQuery :=
  let ml := lowerChars message
  let detected := detectedTypes ml
  let tySubs : String × List String :=
    match detected with
    | [] => ("general", [])
    | [ty] => (ty, [])
    | ts => ("complex", ts)
  let params := extractParameters ml
  let viz := suggestVisualizations tySubs.1
  { originalMessage := message
    queryType := tySubs.1
    subTypes := tySubs.2
    parameters := params
    visualizations := viz
    confidence := calcConfidence tySubs.1 tySubs.2 params viz }

/-! ## Statistical analysis stage: trend detection (`_detect_trends`) -/

/-- First column with datetime dtype (`select_dtypes(['datetime64'])`). -/
def firstDatetimeName (t : Table) : Option String :=
  ((t.filter (fun nc => match nc.2 with | .datetime _ => true | _ => false)).head?).map (·.1)

/-- Up to five non-null values of a column rendered with `str`. -/
def colSampleStrs : Col → List String
  | .numeric v => ((dropNone v).take 5).map toString
  | .text v => (v.filterMap id).take 5
  | .boolean v => ((v.filterMap id).take 5).map (fun b => if b then "True" else "False")
  | .datetime v => ((v.filterMap id).take 5).map toString

/-- The joined-sample substring probe of the trend heuristic. -/
def datePatternProbe (strs : List String) : Bool :=
  if strs.isEmpty then false
  else
    let s := lowerStr (String.intercalate " " strs)
    datePatterns.any (fun p => containsSub p.data s.data)

/-- Does `pd.to_datetime(df[col])` (raise mode) succeed?  Numeric and
datetime columns always parse (integers are epoch offsets), text columns
need every non-null value to parse, booleans raise. -/
def trialParseOk : Col → Bool
  | .numeric _ => true
  | .text v => (v.filterMap id).all (fun s => (parseDate s).isSome)
  | .boolean _ => false
  | .datetime _ => true

/-- The fallback loop of `_detect_trends`: the first column whose sample
passes the substring probe and whose full trial parse succeeds. -/
def heuristicDateColName (t : Table) : Option String :=
  ((t.filter (fun nc => datePatternProbe (colSampleStrs nc.2) && trialParseOk nc.2)).head?).map (·.1)

/-- The datetime column trend detection sorts by, if any. -/
def dateColOf (t : Table) : Option String :=
  match firstDatetimeName t with
  | some c => some c
  | none => heuristicDateColName t

/-- Sort key of row `i` under `pd.to_datetime(..., errors='coerce')`:
`none` is NaT. -/
def dateKeyAt : Col → ℕ → Option ℚ
  | .numeric v, i => v.getD i none
  | .text v, i => ((v.getD i none).bind parseDate).map (fun z => (z : ℚ))
  | .datetime v, i => (v.getD i none).map (fun z => (z : ℚ))
  | .boolean _, _ => none

/-- `sort_values` key order: NaT sorts last. -/
def keyLe (a b : Option ℚ) : Bool :=
  match a, b with
  | some x, some y => decide (x ≤ y)
  | some _, none => true
  | none, none => true
  | none, some _ => false

/-- Row order after sorting by the date column (stable; pandas does not fix
tie order, the claims do not depend on it). -/
def sortedRowIndices (t : Table) (d : String) : List ℕ :=
  match t.lookup d with
  | some c => sortByLe (fun i j => keyLe (dateKeyAt c i) (dateKeyAt c j)) (List.range (rowCount t))
  | none => List.range (rowCount t)

/-- A column's values in sorted row order. -/
def sortedColValues (t : Table) (d : String) (vals : List (Option ℚ)) : List (Option ℚ) :=
  (sortedRowIndices t d).map (fun i => vals.getD i none)

/-- Ordinary least-squares slope of `ys` against the row index
(`np.polyfit(x, y, 1)[0]` with `x = arange(len(ys))`). -/
def lsSlope (ys : List ℚ) : ℚ :=
  let n : ℚ := ys.length
  let xs : List ℚ := (List.range ys.length).map (fun i => (i : ℚ))
  let sx := xs.sum
  let sy := ys.sum
  let sxy := ((xs.zip ys).map (fun p => p.1 * p.2)).sum
  let sxx := (xs.map (fun x => x ^ 2)).sum
  (n * sxy - sx * sy) / (n * sxx - sx ^ 2)

/-- One trend record. -/
structure TrendInfo where
  direction : String
  strength : ℚ
  slope : ℚ
deriving DecidableEq

/-- Trend entry for a sorted value column: needs more than one row; a NaN
among the values makes `polyfit` fail (caught and skipped in the source),
modelled as no entry. -/
def trendEntry (ys : List (Option ℚ)) : Option TrendInfo :=
  if 1 < ys.length ∧ ys.all Option.isSome then
    let slope := lsSlope (ys.filterMap id)
    some ⟨if 0 < slope then "increasing" else "decreasing", |slope|, slope⟩
  else none

/-- `_detect_trends`: no date column means no trends; otherwise sort by it
and fit a line per numeric column other than the date column. -/
def detectTrends (t : Table) : List (String × TrendInfo) :=
  match dateColOf t with
  | none => []
  | some d =>
    (numericCols t).filterMap (fun nc =>
      if nc.1 ≠ d then (trendEntry (sortedColValues t d nc.2)).map (fun e => (nc.1, e))
      else none)

/-! ## Statistical analysis stage: correlations (`_analyze_correlations`)

`numeric_df.corr()` computes the Pearson correlation of each column pair
over the pairwise-complete rows: `r = Sxy / √(Sxx·Syy)` with centered
sums, `NaN` (here `none`) exactly when `Sxx·Syy = 0` (constant column,
fewer than two complete observations, or no observations).  The real value
lives in `ℝ`; the threshold comparisons the source performs on it are
decided by the equivalent exact-rational tests, proved equivalent below. -/

/-- Pairwise-complete observations of two columns. -/
def pairRows : List (Option ℚ) → List (Option ℚ) → List (ℚ × ℚ)
  | some a :: xs, some b :: ys => (a, b) :: pairRows xs ys
  | _ :: xs, _ :: ys => pairRows xs ys
  | _, _ => []

/-- Centered cross sum `Σ (x-x̄)(y-ȳ)`. -/
def covSum (l : List (ℚ × ℚ)) : ℚ :=
  (l.map (fun p =>
    (p.1 - meanQ (l.map (fun q => q.1))) * (p.2 - meanQ (l.map (fun q => q.2))))).sum

/-- Centered sum of squares of the first components. -/
def ssqF (l : List (ℚ × ℚ)) : ℚ :=
  (l.map (fun p => (p.1 - meanQ (l.map (fun q => q.1))) ^ 2)).sum

/-- Centered sum of squares of the second components. -/
def ssqS (l : List (ℚ × ℚ)) : ℚ :=
  (l.map (fun p => (p.2 - meanQ (l.map (fun q => q.2))) ^ 2)).sum

/-- Pearson correlation of two value columns (`none` is NaN). -/
noncomputable def corrEntryVals (xs ys : List (Option ℚ)) : Option ℝ :=
  if ssqF (pairRows xs ys) * ssqS (pairRows xs ys) = 0 then none
  else some ((covSum (pairRows xs ys) : ℝ) /
    Real.sqrt ((ssqF (pairRows xs ys) * ssqS (pairRows xs ys) : ℚ) : ℝ))

/-- Entry of `corr_matrix` for two named numeric columns. -/
noncomputable def corrMatrixEntry (t : Table) (c1 c2 : String) : Option ℝ :=
  match numericColValues t c1, numericColValues t c2 with
  | some xs, some ys => corrEntryVals xs ys
  | _, _ => none

/-- Exact decision of `|r| > c` (for `c ≥ 0`): the entry is defined and
`c²·Sxx·Syy < Sxy²`. -/
def corrThresh (xs ys : List (Option ℚ)) (c : ℚ) : Bool :=
  decide (ssqF (pairRows xs ys) * ssqS (pairRows xs ys) ≠ 0 ∧
    c ^ 2 * (ssqF (pairRows xs ys) * ssqS (pairRows xs ys)) < covSum (pairRows xs ys) ^ 2)

/-- One `strong_correlations` entry; the reported correlation value is
`covS / √denomS`. -/
structure StrongCorr where
  var1 : String
  var2 : String
  covS : ℚ
  denomS : ℚ
  strength : String
deriving DecidableEq

/-- The real correlation value of an entry. -/
noncomputable def StrongCorr.corr (e : StrongCorr) : ℝ :=
  (e.covS : ℝ) / Real.sqrt ((e.denomS : ℚ) : ℝ)

/-- The `i < j` pairs in the source's double-loop order. -/
def pairsAfter : List α → List (α × α)
  | [] => []
  | x :: xs => (xs.map (fun y => (x, y))) ++ pairsAfter xs

/-- The pairs with `|r| > 0.7`, tagged "strong" when `|r| > 0.8`, else
"moderate". -/
def strongCorrelations (t : Table) : List StrongCorr :=
  (pairsAfter (numericCols t)).filterMap (fun pq =>
    if corrThresh pq.1.2 pq.2.2 (7/10) then
      some ⟨pq.1.1, pq.2.1, covSum (pairRows pq.1.2 pq.2.2),
            ssqF (pairRows pq.1.2 pq.2.2) * ssqS (pairRows pq.1.2 pq.2.2),
            if corrThresh pq.1.2 pq.2.2 (4/5) then "strong" else "moderate"⟩
    else none)

/-- Exact decision of `|corr a| > |corr b|` for entries of the strong list
(whose denominators are positive). -/
def corrGt (a b : StrongCorr) : Bool :=
  decide (b.covS ^ 2 * a.denomS < a.covS ^ 2 * b.denomS)

/-- `max(strong_correlations, key=lambda x: abs(x['correlation']))`: Python
`max` keeps the first element with the maximal key. -/
def highestCorrelation (t : Table) : Option StrongCorr :=
  match strongCorrelations t with
  | [] => none
  | h :: tl => some (tl.foldl (fun best e => if corrGt e best then e else best) h)

/-! ## JSON-like payloads and the chart-data stage

`PyVal` models the Python values crossing the core boundary: numbers
(`ℝ`, with the float NaN as its own constructor, since NaN is not a real
number), strings, booleans, `None`, lists and dicts. -/

mutual

/-- A Python value as produced by the core entry points. -/
inductive PyVal where
  | num (x : ℝ)
  | nan
  | str (s : String)
  | bool (b : Bool)
  | null
  | list (xs : PyList)
  | dict (kvs : PyDict)

/-- A Python list of values. -/
inductive PyList where
  | nil
  | cons (v : PyVal) (tl : PyList)

/-- A Python dict with string keys (ordered). -/
inductive PyDict where
  | nil
  | cons (k : String) (v : PyVal) (tl : PyDict)

end

/-- Build a `PyList` from a Lean list. -/
def PyList.ofList : List PyVal → PyList
  | [] => .nil
  | v :: t => .cons v (ofList t)

/-- Build a `PyDict` from a Lean association list. -/
def PyDict.ofList : List (String × PyVal) → PyDict
  | [] => .nil
  | kv :: t => .cons kv.1 kv.2 (ofList t)

/-- First value under a key. -/
def PyDict.find : PyDict → String → Option PyVal
  | .nil, _ => none
  | .cons k v t, key => if k = key then some v else t.find key

/-- The entries of a dict in order. -/
def PyDict.entries : PyDict → List (String × PyVal)
  | .nil => []
  | .cons k v t => (k, v) :: t.entries

/-- `obj[key]` when `obj` is a dict. -/
def PyVal.getKey : PyVal → String → Option PyVal
  | .dict kvs, key => kvs.find key
  | _, _ => none

mutual

/-- Does a payload contain a float NaN anywhere? -/
def PyVal.hasNaN : PyVal → Bool
  | .nan => true
  | .list xs => xs.hasNaN
  | .dict kvs => kvs.hasNaN
  | .num _ => false
  | .str _ => false
  | .bool _ => false
  | .null => false

/-- NaN search in a list. -/
def PyList.hasNaN : PyList → Bool
  | .nil => false
  | .cons v t => v.hasNaN || t.hasNaN

/-- NaN search in a dict. -/
def PyDict.hasNaN : PyDict → Bool
  | .nil => false
  | .cons _ v t => v.hasNaN || t.hasNaN

end

mutual

/-- The core's `_convert_numpy_to_python`: dicts and lists are rebuilt
recursively; numpy arrays/scalars become plain Python values via
`tolist()`/`item()` (already plain in this model, and a NaN stays a NaN);
everything else is returned unchanged.  The function has no NaN case. -/
def convertNumpyToPython : PyVal → PyVal
  | .dict kvs => .dict (convertNumpyDict kvs)
  | .list xs => .list (convertNumpyList xs)
  | v => v

/-- `_convert_numpy_to_python` over a list. -/
def convertNumpyList : PyList → PyList
  | .nil => .nil
  | .cons v t => .cons (convertNumpyToPython v) (convertNumpyList t)

/-- `_convert_numpy_to_python` over a dict. -/
def convertNumpyDict : PyDict → PyDict
  | .nil => .nil
  | .cons k v t => .cons k (convertNumpyToPython v) (convertNumpyDict t)

end

mutual

/-- The transport layer's `replace_nan_recursive` (`api/routes/data.py`):
a float NaN becomes `None`; dicts and lists are rebuilt recursively. -/
def replaceNanRecursive : PyVal → PyVal
  | .nan => .null
  | .dict kvs => .dict (replaceNanDict kvs)
  | .list xs => .list (replaceNanList xs)
  | v => v

/-- `replace_nan_recursive` over a list. -/
def replaceNanList : PyList → PyList
  | .nil => .nil
  | .cons v t => .cons (replaceNanRecursive v) (replaceNanList t)

/-- `replace_nan_recursive` over a dict. -/
def replaceNanDict : PyDict → PyDict
  | .nil => .nil
  | .cons k v t => .cons k (replaceNanRecursive v) (replaceNanDict t)

end

/-- A rational as a Python float. -/
def qPy (q : ℚ) : PyVal := .num (q : ℝ)

/-- A numeric cell as a Python float (`NaN` for missing). -/
def numCellPy (o : Option ℚ) : PyVal :=
  match o with
  | some q => qPy q
  | none => .nan

/-- `Series.tolist()` per dtype (missing numeric values stay NaN, missing
object/datetime values surface as `None`). -/
def colToPyList : Col → List PyVal
  | .numeric v => v.map numCellPy
  | .text v => v.map (fun o => match o with | some s => .str s | none => .null)
  | .boolean v => v.map (fun o => match o with | some b => .bool b | none => .null)
  | .datetime v => v.map (fun o =>
      match o with
      | some d => .num ((d : ℚ) : ℝ)
      | none => .null)

/-- `Series.dropna().tolist()` per dtype. -/
def colDropnaPy : Col → List PyVal
  | .numeric v => (dropNone v).map qPy
  | .text v => (v.filterMap id).map PyVal.str
  | .boolean v => (v.filterMap id).map PyVal.bool
  | .datetime v => (v.filterMap id).map (fun d => PyVal.num ((d : ℚ) : ℝ))

/-- `Series.std()` (`ddof = 1`): NaN for fewer than two observations. -/
noncomputable def stdPy (l : List ℚ) : PyVal :=
  if l.length < 2 then .nan
  else .num (Real.sqrt ((cssQ l / ((l.length : ℚ) - 1) : ℚ) : ℝ))

/-- `_create_summary_chart`: per numeric column with data, its mean, median
and standard deviation (the std of a single observation is NaN). -/
noncomputable def createSummaryChart (t : Table) : PyVal :=
  if (numericCols t).length = 0 then
    .dict (PyDict.ofList [("error", .str "No numeric columns for summary chart")])
  else
    .dict (PyDict.ofList
      [("type", .str "summary_stats"),
       ("data", .list (PyList.ofList ((numericCols t).filterMap (fun nc =>
          let nn := dropNone nc.2
          if nn.length = 0 then none
          else some (.dict (PyDict.ofList
            [("column", .str nc.1),
             ("mean", qPy (meanQ nn)),
             ("median", numCellPy (medianQ nn)),
             ("std", stdPy nn)]))))))])

/-- `_create_trend_charts`: one line payload per entry of the caller's
`trends` mapping; a missing column or a non-dict `trends` value raises a
caught exception, yielding `[]`. -/
def createTrendCharts (t : Table) (a : PyVal) : PyVal :=
  match a.getKey "trends" with
  | some (.dict kvs) =>
    let entries := kvs.entries
    if entries.all (fun kv => (t.lookup kv.1).isSome) then
      .list (PyList.ofList (entries.map (fun kv =>
        .dict (PyDict.ofList
          [("type", .str "line"),
           ("title", .str ("Trend Analysis - " ++ kv.1)),
           ("data", .dict (PyDict.ofList
             [("x", .list (PyList.ofList
                ((List.range (rowCount t)).map (fun i => .num ((i : ℚ) : ℝ))))),
              ("y", .list (PyList.ofList (colToPyList ((t.lookup kv.1).getD (.numeric []))))),
              ("trend", kv.2)]))]))))
    else .list .nil
  | some _ => .list .nil
  | none => .list .nil

/-- `_create_correlation_chart`: the caller's correlation matrix verbatim
as a heatmap payload, or an error entry. -/
def createCorrelationChart (a : PyVal) : PyVal :=
  match (a.getKey "correlations").bind (fun c => c.getKey "correlation_matrix") with
  | some m =>
    .dict (PyDict.ofList
      [("type", .str "heatmap"), ("title", .str "Correlation Matrix"), ("data", m)])
  | none => .dict (PyDict.ofList [("error", .str "No correlation data available")])

/-- `_create_distribution_charts`: one histogram of the non-null values per
numeric column with data. -/
def createDistributionCharts (t : Table) : PyVal :=
  .list (PyList.ofList ((numericCols t).filterMap (fun nc =>
    let nn := dropNone nc.2
    if nn.length = 0 then none
    else some (.dict (PyDict.ofList
      [("type", .str "histogram"),
       ("title", .str ("Distribution - " ++ nc.1)),
       ("data", .dict (PyDict.ofList
         [("values", .list (PyList.ofList (nn.map qPy))),
          ("column", .str nc.1)]))])))))

/-- `_create_anomaly_charts`: one scatter payload per anomalous column with
data; a missing column, or missing `outlier_values`/`bounds` keys on an
entry that is reached, raises a caught exception yielding `[]`. -/
def createAnomalyCharts (t : Table) (a : PyVal) : PyVal :=
  match a.getKey "anomalies" with
  | some (.dict kvs) =>
    let entries := kvs.entries
    let okEntry := fun (kv : String × PyVal) =>
      match t.lookup kv.1 with
      | none => false
      | some c =>
        if (colDropnaPy c).isEmpty then true
        else (kv.2.getKey "outlier_values").isSome && (kv.2.getKey "bounds").isSome
    if entries.all okEntry then
      .list (PyList.ofList (entries.filterMap (fun kv =>
        let cd := colDropnaPy ((t.lookup kv.1).getD (.numeric []))
        if cd.isEmpty then none
        else some (.dict (PyDict.ofList
          [("type", .str "scatter"),
           ("title", .str ("Anomaly Detection - " ++ kv.1)),
           ("data", .dict (PyDict.ofList
             [("values", .list (PyList.ofList cd)),
              ("anomalies", (kv.2.getKey "outlier_values").getD .null),
              ("bounds", (kv.2.getKey "bounds").getD .null)]))])))))
    else .list .nil
  | some _ => .list .nil
  | none => .list .nil

/-- `_create_pattern_charts`: a scatter of the first two numeric columns
when at least two exist, plus the caller's correlation matrix as a second
heatmap when present. -/
def createPatternCharts (t : Table) (a : PyVal) : PyVal :=
  let scatterPart : List PyVal :=
    match numericCols t with
    | c0 :: c1 :: _ =>
      [.dict (PyDict.ofList
        [("type", .str "scatter"),
         ("title", .str ("Relationship: " ++ c0.1 ++ " vs " ++ c1.1)),
         ("data", .dict (PyDict.ofList
           [("x", .list (PyList.ofList (c0.2.map numCellPy))),
            ("y", .list (PyList.ofList (c1.2.map numCellPy))),
            ("x_label", .str c0.1),
            ("y_label", .str c1.1)])),
         ("description", .str ("Scatter plot showing relationship between "
           ++ c0.1 ++ " and " ++ c1.1))])]
    | _ => []
  let corrPart : List PyVal :=
    match (a.getKey "correlations").bind (fun c => c.getKey "correlation_matrix") with
    | some m =>
      [.dict (PyDict.ofList
        [("type", .str "correlation_heatmap"),
         ("title", .str "Correlation Matrix"),
         ("data", m),
         ("description", .str "Heatmap showing correlations between numeric variables")])]
    | none => []
  .list (PyList.ofList (scatterPart ++ corrPart))

/-- `create_charts_data` (`build_charts`): assemble the six chart payloads
(none of the six sub-derivations is Python `None`, so the `None` filter of
the source is a no-op) and run the core's own
`_convert_numpy_to_python` on the result before returning it. -/
noncomputable def createChartsData (t : Table) (a : PyVal) : PyVal :=
  convertNumpyToPython (.dict (PyDict.ofList
    [("summary", createSummaryChart t),
     ("trends", createTrendCharts t a),
     ("correlations", createCorrelationChart a),
     ("distributions", createDistributionCharts t),
     ("anomalies", createAnomalyCharts t a),
     ("patterns", createPatternCharts t a)]))

/-! ## Concrete scenario tables used by the claims -/

/-- The end-to-end trend scenario: `date` holds 12 monthly ISO strings and
`revenue` strictly increasing integers. -/
def trendScenarioTable : Table :=
  [("date", Col.text ((List.range 12).map (fun i =>
      some ("2023-" ++ (if i < 9 then "0" else "") ++ toString (i + 1))))),
   ("revenue", Col.numeric ((List.range 12).map (fun i => some ((100 + i : ℕ) : ℚ))))]

/-!
# Theorems

Helper lemmas first, then one theorem per claim (with witnesses and
counterexamples where required).
-/

/-! ## Helper lemmas about the list utilities -/

theorem mem_insertLe (le : α → α → Bool) (x y : α) (l : List α) :
    y ∈ insertLe le x l ↔ y = x ∨ y ∈ l := by
  induction l with
  | nil => simp [insertLe]
  | cons a t ih =>
    simp only [insertLe]
    split
    · simp [List.mem_cons]
    · simp only [List.mem_cons, ih]
      tauto

theorem pairwise_insertLe (x : ℚ) (l : List ℚ) (h : l.Pairwise (· ≤ ·)) :
    (insertLe (fun a b => decide (a ≤ b)) x l).Pairwise (· ≤ ·) := by
  induction l with
  | nil => simp [insertLe]
  | cons a t ih =>
    rw [List.pairwise_cons] at h
    simp only [insertLe]
    split
    · rename_i hxa
      rw [decide_eq_true_eq] at hxa
      refine List.Pairwise.cons ?_ (List.Pairwise.cons h.1 h.2)
      intro b hb
      rcases List.mem_cons.mp hb with rfl | hbt
      · exact hxa
      · exact le_trans hxa (h.1 b hbt)
    · rename_i hxa
      rw [decide_eq_true_eq] at hxa
      push_neg at hxa
      refine List.Pairwise.cons ?_ (ih h.2)
      intro b hb
      rcases (mem_insertLe _ _ _ _).mp hb with rfl | hbt
      · exact le_of_lt hxa
      · exact h.1 b hbt

theorem sortQ_pairwise (l : List ℚ) : (sortQ l).Pairwise (· ≤ ·) := by
  induction l with
  | nil => simp [sortQ, sortByLe]
  | cons a t ih => exact pairwise_insertLe a _ ih

theorem length_insertLe (le : α → α → Bool) (x : α) (l : List α) :
    (insertLe le x l).length = l.length + 1 := by
  induction l with
  | nil => rfl
  | cons a t ih =>
    simp only [insertLe]
    split
    · rfl
    · simp [ih]

theorem length_sortQ (l : List ℚ) : (sortQ l).length = l.length := by
  induction l with
  | nil => rfl
  | cons a t ih => simp [sortQ, sortByLe, length_insertLe, sortQ] at ih ⊢; omega

theorem sorted_getD_le (l : List ℚ) (h : l.Pairwise (· ≤ ·)) (i j : ℕ)
    (hij : i ≤ j) (hj : j < l.length) : l.getD i 0 ≤ l.getD j 0 := by
  rcases Nat.eq_or_lt_of_le hij with rfl | hlt
  · exact le_refl _
  · have hgt := List.pairwise_iff_get.mp h ⟨i, lt_trans hlt hj⟩ ⟨j, hj⟩ hlt
    rw [List.getD_eq_getElem _ _ (lt_trans hlt hj), List.getD_eq_getElem _ _ hj]
    exact hgt

/-! ## Monotonicity of the linear-interpolation quantile -/

theorem quantileSorted_mono (s : List ℚ) (hs : s.Pairwise (· ≤ ·)) (hne : s ≠ [])
    (p1 p2 : ℚ) (h0 : 0 ≤ p1) (hp : p1 ≤ p2) (h1 : p2 ≤ 1) :
    quantileSorted s p1 ≤ quantileSorted s p2 := by
  have hn : 1 ≤ s.length := List.length_pos.mpr hne
  have hq1 : (0:ℚ) ≤ ((s.length : ℚ) - 1) := by
    have h' : (1:ℚ) ≤ (s.length : ℚ) := by exact_mod_cast hn
    linarith
  set a := ((s.length : ℚ) - 1) * p1 with hadef
  set b := ((s.length : ℚ) - 1) * p2 with hbdef
  have hab : a ≤ b := mul_le_mul_of_nonneg_left hp hq1
  have ha0 : 0 ≤ a := mul_nonneg hq1 h0
  have hb0 : 0 ≤ b := le_trans ha0 hab
  have hbn : b ≤ (s.length : ℚ) - 1 := by
    calc b ≤ ((s.length : ℚ) - 1) * 1 := mul_le_mul_of_nonneg_left h1 hq1
    _ = (s.length : ℚ) - 1 := mul_one _
  have hfa0 : 0 ≤ ⌊a⌋ := Int.floor_nonneg.mpr ha0
  have hfb0 : 0 ≤ ⌊b⌋ := Int.floor_nonneg.mpr hb0
  set ia := (⌊a⌋).toNat with hiadef
  set ib := (⌊b⌋).toNat with hibdef
  have hiaQ : ((ia : ℚ)) ≤ a := by
    have h' := Int.floor_le a
    have h2 : ((ia : ℤ) : ℚ) = ((⌊a⌋ : ℤ) : ℚ) := by
      rw [hiadef, Int.toNat_of_nonneg hfa0]
    push_cast at h2 ⊢
    linarith
  have hiaQ2 : a < (ia : ℚ) + 1 := by
    have h' := Int.lt_floor_add_one a
    have h2 : ((ia : ℤ) : ℚ) = ((⌊a⌋ : ℤ) : ℚ) := by
      rw [hiadef, Int.toNat_of_nonneg hfa0]
    push_cast at h2 ⊢
    linarith
  have hibQ : ((ib : ℚ)) ≤ b := by
    have h' := Int.floor_le b
    have h2 : ((ib : ℤ) : ℚ) = ((⌊b⌋ : ℤ) : ℚ) := by
      rw [hibdef, Int.toNat_of_nonneg hfb0]
    push_cast at h2 ⊢
    linarith
  have hibQ2 : b < (ib : ℚ) + 1 := by
    have h' := Int.lt_floor_add_one b
    have h2 : ((ib : ℤ) : ℚ) = ((⌊b⌋ : ℤ) : ℚ) := by
      rw [hibdef, Int.toNat_of_nonneg hfb0]
    push_cast at h2 ⊢
    linarith
  have hiaib : ia ≤ ib := by
    rw [hiadef, hibdef]
    exact Int.toNat_le_toNat (Int.floor_le_floor hab)
  have hibn : ib < s.length := by
    have h' : ⌊b⌋ ≤ ⌊(s.length : ℚ) - 1⌋ := Int.floor_le_floor hbn
    have h2 : ((s.length : ℚ) - 1) = (((s.length : ℤ) - 1 : ℤ) : ℚ) := by push_cast; ring
    rw [h2, Int.floor_intCast] at h'
    omega
  have hlohi : ∀ i : ℕ, i ≤ ib → s.getD i 0 ≤ s.getD (i + 1) (s.getD i 0) := by
    intro i hi
    by_cases hr : i + 1 < s.length
    · rw [show s.getD (i + 1) (s.getD i 0) = s.getD (i + 1) 0 from by
        rw [List.getD_eq_getElem _ _ hr, List.getD_eq_getElem _ _ hr]]
      exact sorted_getD_le s hs i (i + 1) (Nat.le_succ i) hr
    · have hdf : s.getD (i + 1) (s.getD i 0) = s.getD i 0 :=
        List.getD_eq_default _ _ (by omega)
      rw [hdf]
  show s.getD ia 0 + (a - (ia : ℚ)) * (s.getD (ia + 1) (s.getD ia 0) - s.getD ia 0) ≤
    s.getD ib 0 + (b - (ib : ℚ)) * (s.getD (ib + 1) (s.getD ib 0) - s.getD ib 0)
  obtain heq | hlt := Nat.eq_or_lt_of_le hiaib
  · rw [heq] at hiaQ hiaQ2 ⊢
    have hfl := hlohi ib (le_refl _)
    have hprod := mul_nonneg (sub_nonneg.mpr hab) (sub_nonneg.mpr hfl)
    nlinarith
  · -- `ia < ib`: chain through `hi₁ ≤ lo₂`
    have hia1n : ia + 1 < s.length := by omega
    have h_hi1 : s.getD (ia + 1) (s.getD ia 0) = s.getD (ia + 1) 0 := by
      rw [List.getD_eq_getElem _ _ hia1n, List.getD_eq_getElem _ _ hia1n]
    have hstep : s.getD (ia + 1) 0 ≤ s.getD ib 0 :=
      sorted_getD_le s hs (ia + 1) ib hlt hibn
    have hlo1hi1 := hlohi ia (le_of_lt hlt)
    have h1a : s.getD ia 0 + (a - (ia : ℚ)) *
        (s.getD (ia + 1) (s.getD ia 0) - s.getD ia 0) ≤ s.getD (ia + 1) (s.getD ia 0) := by
      nlinarith [hlo1hi1, hiaQ2, hiaQ]
    have h2b : s.getD ib 0 ≤ s.getD ib 0 + (b - (ib : ℚ)) *
        (s.getD (ib + 1) (s.getD ib 0) - s.getD ib 0) := by
      nlinarith [hlohi ib (le_refl _), hibQ]
    calc s.getD ia 0 + (a - (ia : ℚ)) * (s.getD (ia + 1) (s.getD ia 0) - s.getD ia 0)
        ≤ s.getD (ia + 1) (s.getD ia 0) := h1a
    _ = s.getD (ia + 1) 0 := h_hi1
    _ ≤ s.getD ib 0 := hstep
    _ ≤ _ := h2b

theorem q1Of_le_q3Of (nn : List ℚ) (hne : nn ≠ []) : q1Of nn ≤ q3Of nn := by
  have hs := sortQ_pairwise nn
  have hlen : sortQ nn ≠ [] := by
    intro h
    apply hne
    have hl := length_sortQ nn
    rw [h] at hl
    exact List.length_eq_zero.mp hl.symm
  exact quantileSorted_mono _ hs hlen (1/4) (3/4) (by norm_num) (by norm_num) (by norm_num)

theorem lowerBound_le_upperBound (nn : List ℚ) (hne : nn ≠ []) :
    lowerBoundOf nn ≤ upperBoundOf nn := by
  have h := q1Of_le_q3Of nn hne
  unfold lowerBoundOf upperBoundOf
  linarith

/-! ## C2: failure handling in the cleaning dispatcher -/

theorem runRules_append {ρ : Type}
    (l1 l2 : List (String × (Table → Table × Except String ρ))) (t : Table) :
    runRules (l1 ++ l2) t =
      ((runRules l2 (runRules l1 t).1).1,
       (runRules l1 t).2 ++ (runRules l2 (runRules l1 t).1).2) := by
  induction l1 generalizing t with
  | nil => simp [runRules]
  | cons r rest ih =>
    obtain ⟨nm, g⟩ := r
    simp only [List.cons_append, runRules]
    rcases hg : g t with ⟨t2, rx⟩
    cases rx with
    | ok r => simp [hg, ih t2]
    | error e2 => simp [hg, ih t2]

/-- C2 (amended): for every input table and every cleaning rule, if that
rule raises then the error is recorded in the cleaning report under that
rule's name and the remaining rules still run — but they run on the frame
in the state the failing call left it (the call's first projection here,
i.e. the in-place mutated object), not on a restored copy of the frame the
failing rule received: running `pre ++ (name, f) :: post` when `f` fails on
the table produced by `pre` yields the steps of `pre`, then the error
entry under `name`, then the steps of `post` run from the failing call's
post-mutation frame.  The dispatcher performs no rollback, so the original
claim's no-partial-effect clause holds only when the failing rule did not
mutate before raising. -/
theorem C2_rule_failure_handling {ρ : Type}
    (pre post : List (String × (Table → Table × Except String ρ)))
    (name : String) (f : Table → Table × Except String ρ) (t : Table) (e : String)
    (hfail : (f (runRules pre t).1).2 = Except.error e) :
    runRules (pre ++ (name, f) :: post) t =
      ((runRules post (f (runRules pre t).1).1).1,
       (runRules pre t).2 ++
         Step.failed name e :: (runRules post (f (runRules pre t).1).1).2) := by
  rcases hft : f (runRules pre t).1 with ⟨t2, rx⟩
  rw [hft] at hfail
  change rx = Except.error e at hfail
  subst hfail
  rw [runRules_append]
  simp only [runRules, hft]

/-- Witness for C2 at the concrete scenario of the counterexample below:
the missing-value rule raising after imputing its first column, run first,
followed by the five remaining cleaning rules. -/
theorem C2_rule_failure_handling_witness :
    runRules (([] : List (String × (Table → Table × Except String RuleReport))) ++
        ("missing_values", missingValuesRaiseRR) :: cleaningRules.drop 1)
        tMissC2 =
      ((runRules (cleaningRules.drop 1) (missingValuesRaiseRR tMissC2).1).1,
       ([] : List (Step RuleReport)) ++
         Step.failed "missing_values" "TypeError" ::
           (runRules (cleaningRules.drop 1) (missingValuesRaiseRR tMissC2).1).2) :=
  C2_rule_failure_handling [] (cleaningRules.drop 1) "missing_values"
    missingValuesRaiseRR tMissC2 "TypeError" rfl

/-- C2 counterexample: the claim's clause "the table passed on to the next
rule is unmodified by the failing rule (no partial effect)" is false.  On
`tMissC2` the missing-value rule raises on its second column having already
median-imputed the first column in place; the dispatcher records the error,
keeps going, and hands the partially modified frame to the next rule — here
a probe rule whose report is exactly the table it receives.  The probe
receives the mutated `[a ↦ [2,2], b ↦ [none,3]]`, which differs from the
table `[a ↦ [none,2], b ↦ [none,3]]` the failing rule was given. -/
theorem C2_next_rule_sees_mutation :
    runRules [("missing_values", missingValuesRaiseAfterFirst),
              ("probe", fun t => (t, Except.ok t))] tMissC2 =
      ([("a", Col.numeric [some 2, some 2]), ("b", Col.datetime [none, some 3])],
       [Step.failed "missing_values" "TypeError",
        Step.ok "probe"
          [("a", Col.numeric [some 2, some 2]), ("b", Col.datetime [none, some 3])]]) ∧
    [("a", Col.numeric [some 2, some 2]), ("b", Col.datetime [none, some 3])] ≠
      tMissC2 := by
  refine ⟨?_, ?_⟩
  · with_unfolding_all decide
  · with_unfolding_all decide

/-! ## C3: the boolean-coercion branch of the type-fixing rule is dead -/

/-- C3 (code evaluation at the failing input): a text column with distinct
values exactly `{"yes","no"}` is left untouched by the type-coercion rule
— no boolean conversion happens and no conversion is recorded, because the
boolean branch sits behind `elif df[column].dtype == 'object'` after an
`if` with the identical condition; the `{"yes","maybe"}` column is also
untouched, as the claim states. -/
theorem C3_boolean_coercion_unreachable :
    fixDataTypesCol (Col.text [some "yes", some "no"]) =
      (Col.text [some "yes", some "no"], none) ∧
    fixDataTypesCol (Col.text [some "yes", some "maybe"]) =
      (Col.text [some "yes", some "maybe"], none) := by
  constructor
  · with_unfolding_all decide
  · with_unfolding_all decide

/-! ## C5: the outlier-capping rule is not idempotent -/

/-- C5 (counterexample): on the single numeric column `[-16, 0, 0, 0]`
(linear-interpolation quartiles `Q1 = -4`, `Q3 = 0`, bounds `[-10, 6]`),
the first pass caps `-16` to `-10`; re-running computes narrower bounds
`[-6.25, 3.75]` from the capped data and caps again, so applying the rule
twice differs from applying it once. -/
theorem C5_outlier_capping_not_idempotent :
    (handleOutliers (handleOutliers
        [("x", Col.numeric [some (-16), some 0, some 0, some 0])]).1).1 ≠
      (handleOutliers [("x", Col.numeric [some (-16), some 0, some 0, some 0])]).1 := by
  with_unfolding_all decide

/-- C5 (amended): one application of the outlier rule caps every value of
each numeric column into the bounds `[Q1 - 1.5·IQR, Q3 + 1.5·IQR]` computed
from that column's pre-capping values (the rule acts columnwise); the rule
is however not idempotent — a second run can compute narrower bounds and
cap again (see the counterexample). -/
theorem C5_outlier_capping_bounds (t : Table) :
    ((handleOutliers t).1 = t.map (fun nc => (nc.1,
        match nc.2 with
        | Col.numeric v => Col.numeric (handleOutliersCol (rowCount t) v).1
        | c => c))) ∧
    (∀ (nrows : ℕ) (vals : List (Option ℚ)), dropNone vals ≠ [] →
      ∀ q : ℚ, some q ∈ (handleOutliersCol nrows vals).1 →
        lowerBoundOf (dropNone vals) ≤ q ∧ q ≤ upperBoundOf (dropNone vals)) := by
  constructor
  · unfold handleOutliers
    simp only [List.map_map]
    refine List.map_congr_left ?_
    intro nc _
    rcases nc with ⟨name, c⟩
    cases c <;> rfl
  · intro nrows vals hne q hq
    have hLU : lowerBoundOf (dropNone vals) ≤ upperBoundOf (dropNone vals) :=
      lowerBound_le_upperBound _ hne
    unfold handleOutliersCol at hq
    rw [if_neg hne] at hq
    by_cases hcnt : 0 < vals.countP (fun o =>
      match o with
      | some x => decide (x < lowerBoundOf (dropNone vals) ∨ upperBoundOf (dropNone vals) < x)
      | none => false)
    · rw [if_pos hcnt] at hq
      simp only [List.mem_map] at hq
      obtain ⟨o, ho, hoq⟩ := hq
      cases o with
      | none => simp [Option.map] at hoq
      | some x =>
        simp only [Option.map] at hoq
        obtain rfl : min (max x (lowerBoundOf (dropNone vals)))
            (upperBoundOf (dropNone vals)) = q := by
          exact Option.some.inj hoq
        constructor
        · exact le_min (le_max_right _ _) hLU
        · exact min_le_right _ _
    · rw [if_neg hcnt] at hq
      have h0 : vals.countP (fun o =>
          match o with
          | some x => decide (x < lowerBoundOf (dropNone vals) ∨
              upperBoundOf (dropNone vals) < x)
          | none => false) = 0 := Nat.eq_zero_of_not_pos hcnt
      have hnot := List.countP_eq_zero.mp h0 (some q) hq
      simp only [decide_eq_true_eq] at hnot
      push_neg at hnot
      exact hnot

/-- Witness for C5's amended theorem: the clipped value `-10` of the
counterexample column lies inside that run's bounds `[-10, 6]`. -/
theorem C5_outlier_capping_bounds_witness :
    lowerBoundOf (dropNone [some (-16), some 0, some 0, some 0]) ≤ (-10 : ℚ) ∧
      (-10 : ℚ) ≤ upperBoundOf (dropNone [some (-16), some 0, some 0, some 0]) :=
  (C5_outlier_capping_bounds []).2 4 [some (-16), some 0, some 0, some 0]
    (by decide) (-10) (by with_unfolding_all decide)

/-! ## C8: all-null numeric columns and median imputation -/

/-- C8 (counterexample): the missing-value rule produces the *same* report
for an all-null numeric column (where nothing can be imputed) as for a
column where median imputation genuinely succeeds — `missing_counts` 2 and
method "median" in both — while the all-null column stays fully null; the
report therefore does not flag the degenerate case. -/
theorem C8_no_degenerate_flag :
    (handleMissingValues [("x", Col.numeric [none, none])]).2 =
      (handleMissingValues [("x", Col.numeric [none, none, some 1, some 2, some 3])]).2 ∧
    (handleMissingValues [("x", Col.numeric [none, none])]).1 =
      [("x", Col.numeric [none, none])] ∧
    (handleMissingValues [("x", Col.numeric [none, none, some 1, some 2, some 3])]).1 =
      [("x", Col.numeric [some 2, some 2, some 1, some 2, some 3])] := by
  refine ⟨rfl, rfl, rfl⟩

/-- C8 (amended): on an all-null numeric column the median is NaN, the
`fillna` is a no-op (the column stays fully null), and the report records
the ordinary `"median"` method with the missing count — with no marker of
the degenerate case. -/
theorem C8_allnull_median_silent (vals : List (Option ℚ)) (hne : vals ≠ [])
    (hall : ∀ o ∈ vals, o = none) :
    handleMissingValuesCol (Col.numeric vals) =
      (Col.numeric vals, some (vals.length, "median")) := by
  simp only [handleMissingValuesCol]
  have hcnt : vals.countP (fun o => o.isNone) = vals.length := by
    apply List.countP_eq_length.mpr
    intro o ho
    rw [hall o ho]
    rfl
  have hpos : 0 < vals.countP (fun o => o.isNone) := by
    rw [hcnt]
    exact List.length_pos.mpr hne
  rw [if_pos hpos]
  have hdrop : dropNone vals = [] := by
    unfold dropNone
    rw [List.filterMap_eq_nil_iff]
    intro o ho
    rw [hall o ho]
    rfl
  have hmed : medianQ (dropNone vals) = none := by rw [hdrop]; rfl
  rw [hmed, hcnt]
  have hmap : (vals.map (fun o =>
      match o with
      | some v => some v
      | none => (none : Option ℚ))) = vals := by
    rw [show (fun (o : Option ℚ) =>
        match o with
        | some v => some v
        | none => (none : Option ℚ)) = id from ?_, List.map_id]
    funext o
    cases o <;> rfl
  rw [hmap]

/-- Witness for C8's amended theorem at a concrete all-null column. -/
theorem C8_allnull_median_silent_witness :
    handleMissingValuesCol (Col.numeric [none, none]) =
      (Col.numeric [none, none], some (2, "median")) :=
  C8_allnull_median_silent [none, none] (by decide) (by decide)

/-! ## C9: the statistics-sentence gap -/

/-- C9: a numeric column with positive standard deviation, coefficient of
variation `std/|mean|` in `[0.1, 0.5]`, and `|skewness|` in `[0.5, 1]`
produces no statistics sentence: the variability thresholds (`> 0.5`,
`< 0.1`) and the skewness thresholds (`> 1`, `< 0.5`) all fail, so the
generator returns nothing. -/
theorem C9_statistics_sentence_gap (column : String) (mean std skew : ℚ)
    (_hstd : 0 < std) (hcv1 : 1/10 ≤ std / |mean|) (hcv2 : std / |mean| ≤ 1/2)
    (hsk1 : 1/2 ≤ |skew|) (hsk2 : |skew| ≤ 1) :
    generateStatisticsInsight column mean std skew = none := by
  have hm : mean ≠ 0 := by
    intro h
    rw [h, abs_zero, div_zero] at hcv1
    linarith
  unfold generateStatisticsInsight
  rw [if_pos hm,
      if_neg (by push_neg; intro _; linarith),
      if_neg (by push_neg; intro _; linarith),
      if_neg (by linarith),
      if_neg (by linarith)]

/-- Witness for C9 with `mean = 1`, `std = 0.3` (cv `0.3`), skew `0.7`. -/
theorem C9_statistics_sentence_gap_witness :
    generateStatisticsInsight "value" 1 (3/10) (7/10) = none :=
  C9_statistics_sentence_gap "value" 1 (3/10) (7/10) (by norm_num)
    (by rw [abs_one]; norm_num) (by rw [abs_one]; norm_num)
    (by rw [abs_of_pos]; norm_num; norm_num) (by rw [abs_of_pos]; norm_num; norm_num)

/-! ## C7: intent classification -/

/-- C7: `classify` returns intent "general" when none of the nine intent
regexes match the lowercased input, the single matching intent when exactly
one matches, and "complex" carrying the full matched set when several
match; on "show me the trend in sales over the last 3 months" the intent
is "trend" and the extracted parameters contain `months == 3`. -/
theorem C7_intent_classification :
    (∀ msg : String,
      (detectedTypes (lowerChars msg) = [] → (parseQuery msg).queryType = "general") ∧
      (∀ ty, detectedTypes (lowerChars msg) = [ty] → (parseQuery msg).queryType = ty) ∧
      (2 ≤ (detectedTypes (lowerChars msg)).length →
        (parseQuery msg).queryType = "complex" ∧
        (parseQuery msg).subTypes = detectedTypes (lowerChars msg))) ∧
    (parseQuery "show me the trend in sales over the last 3 months").queryType = "trend" ∧
    (parseQuery "show me the trend in sales over the last 3 months").parameters.months =
      some 3 := by
  refine ⟨?_, ?_, ?_⟩
  · intro msg
    refine ⟨?_, ?_, ?_⟩
    · intro h
      simp [parseQuery, h]
    · intro ty h
      simp [parseQuery, h]
    · intro h
      rcases hdet : detectedTypes (lowerChars msg) with _ | ⟨a, _ | ⟨b, tl⟩⟩
      · rw [hdet] at h; simp at h
      · rw [hdet] at h; simp at h
      · constructor <;> simp [parseQuery, hdet]
  · with_unfolding_all decide
  · with_unfolding_all decide

/-- Witness for C7: the single-match case discharged on the scenario
input. -/
theorem C7_intent_classification_witness :
    (parseQuery "show me the trend in sales over the last 3 months").queryType = "trend" :=
  (C7_intent_classification.1 "show me the trend in sales over the last 3 months").2.1
    "trend" (by with_unfolding_all decide)

/-! ## C10: the confidence range -/

theorem suggestVisualizations_ne_nil (qt : String) : suggestVisualizations qt ≠ [] := by
  unfold suggestVisualizations
  simp only [List.lookup]
  repeat' split <;> simp_all

theorem parseQuery_structure (msg : String) :
    (parseQuery msg).visualizations = suggestVisualizations (parseQuery msg).queryType ∧
    (parseQuery msg).confidence = calcConfidence (parseQuery msg).queryType
      (parseQuery msg).subTypes (parseQuery msg).parameters (parseQuery msg).visualizations ∧
    (1 < (parseQuery msg).subTypes.length → (parseQuery msg).queryType = "complex") := by
  refine ⟨rfl, rfl, ?_⟩
  rcases hdet : detectedTypes (lowerChars msg) with _ | ⟨a, _ | ⟨b, tl⟩⟩ <;>
    simp [parseQuery, hdet]

theorem calcConfidence_bounds (ty : String) (subs : List String) (params : QueryParams)
    (viz : List String) (hviz : viz ≠ []) (hsub : 1 < subs.length → ty ≠ "general") :
    calcConfidence ty subs params viz =
      1/2 + (if ty ≠ "general" then 1/5 else 0) + (if params.nonempty then 1/10 else 0)
        + (if viz ≠ [] then 1/10 else 0) - (if 1 < subs.length then 1/10 else 0) ∧
    3/5 ≤ calcConfidence ty subs params viz ∧ calcConfidence ty subs params viz ≤ 9/10 := by
  unfold calcConfidence
  rw [if_pos hviz]
  by_cases h1 : ty ≠ "general"
  · rw [if_pos h1]
    by_cases h2 : params.nonempty <;> by_cases h4 : 1 < subs.length
    · rw [if_pos h2, if_pos h4]
      norm_num [min_def, max_def]
    · rw [if_pos h2, if_neg h4]
      norm_num [min_def, max_def]
    · rw [if_neg h2, if_pos h4]
      norm_num [min_def, max_def]
    · rw [if_neg h2, if_neg h4]
      norm_num [min_def, max_def]
  · rw [if_neg h1]
    have h4 : ¬ 1 < subs.length := fun h => (hsub h) (not_not.mp h1)
    rw [if_neg h4]
    by_cases h2 : params.nonempty
    · rw [if_pos h2]
      norm_num [min_def, max_def]
    · rw [if_neg h2]
      norm_num [min_def, max_def]

/-- C10: the confidence returned by `classify` always lies in `[0.6, 0.9]`:
the visualization-suggestion list is non-empty for every intent, so its
`+0.1` bonus always applies, and the clamp to `[0, 1]` is never active —
the confidence equals the unclamped score, whose reachable extremes are
`0.6` (empty input) and `0.9` (a single-intent query with parameters). -/
theorem C10_confidence_range :
    (∀ qt : String, suggestVisualizations qt ≠ []) ∧
    (∀ msg : String,
      (parseQuery msg).confidence =
        1/2 + (if (parseQuery msg).queryType ≠ "general" then 1/5 else 0)
          + (if (parseQuery msg).parameters.nonempty then 1/10 else 0)
          + (if (parseQuery msg).visualizations ≠ [] then 1/10 else 0)
          - (if 1 < (parseQuery msg).subTypes.length then 1/10 else 0) ∧
      3/5 ≤ (parseQuery msg).confidence ∧ (parseQuery msg).confidence ≤ 9/10) ∧
    (parseQuery "").confidence = 3/5 ∧
    (parseQuery "show me a trend 42").confidence = 9/10 := by
  refine ⟨suggestVisualizations_ne_nil, ?_, ?_, ?_⟩
  · intro msg
    obtain ⟨hv, hc, hs⟩ := parseQuery_structure msg
    have hviz : (parseQuery msg).visualizations ≠ [] := by
      rw [hv]
      exact suggestVisualizations_ne_nil _
    have hsub : 1 < (parseQuery msg).subTypes.length →
        (parseQuery msg).queryType ≠ "general" := by
      intro h
      rw [hs h]
      decide
    have hb := calcConfidence_bounds (parseQuery msg).queryType (parseQuery msg).subTypes
      (parseQuery msg).parameters (parseQuery msg).visualizations hviz hsub
    rw [hc]
    exact hb
  · with_unfolding_all decide
  · with_unfolding_all decide

/-- Witness for C10 on a concrete message. -/
theorem C10_confidence_range_witness :
    (3/5 : ℚ) ≤ (parseQuery "hello there").confidence ∧
      (parseQuery "hello there").confidence ≤ 9/10 :=
  ⟨(C10_confidence_range.2.1 "hello there").2.1, (C10_confidence_range.2.1 "hello there").2.2⟩

/-! ## C6: trend direction, strength and slope -/

/-- C6: whenever trend detection finds a datetime column, every reported
trend entry's slope is the least-squares slope of the column values against
the row index after sorting by that column, the direction is "increasing"
exactly when the slope is positive and "decreasing" otherwise, and the
strength is the absolute slope. -/
theorem C6_trend_direction (t : Table) (d : String) (hd : dateColOf t = some d) :
    ∀ name e, (name, e) ∈ detectTrends t →
      ∃ vals, (name, vals) ∈ numericCols t ∧
        e.slope = lsSlope ((sortedColValues t d vals).filterMap id) ∧
        e.direction = (if 0 < e.slope then "increasing" else "decreasing") ∧
        e.strength = |e.slope| := by
  intro name e he
  unfold detectTrends at he
  rw [hd, List.mem_filterMap] at he
  obtain ⟨nc, hnc, hmap⟩ := he
  obtain ⟨cn, cv⟩ := nc
  by_cases hne : cn ≠ d
  · rw [if_pos hne, Option.map_eq_some'] at hmap
    obtain ⟨e0, he0, heq⟩ := hmap
    rw [Prod.mk.injEq] at heq
    obtain ⟨rfl, rfl⟩ := heq
    unfold trendEntry at he0
    split at he0
    · injection he0 with h0
      subst h0
      exact ⟨cv, hnc, rfl, rfl, rfl⟩
    · cases he0
  · rw [if_neg hne] at hmap
    cases hmap

/-- Witness for C6: the 12-monthly-string revenue scenario — the heuristic
finds the `date` column, and `revenue` is reported "increasing" with
strength `1 > 0`. -/
theorem C6_trend_direction_witness :
    dateColOf trendScenarioTable = some "date" ∧
    (∀ name e, (name, e) ∈ detectTrends trendScenarioTable →
      ∃ vals, (name, vals) ∈ numericCols trendScenarioTable ∧
        e.slope = lsSlope ((sortedColValues trendScenarioTable "date" vals).filterMap id) ∧
        e.direction = (if 0 < e.slope then "increasing" else "decreasing") ∧
        e.strength = |e.slope|) ∧
    detectTrends trendScenarioTable = [("revenue", ⟨"increasing", 1, 1⟩)] ∧
    (0 : ℚ) < (⟨"increasing", 1, 1⟩ : TrendInfo).strength :=
  ⟨by with_unfolding_all decide,
   C6_trend_direction trendScenarioTable "date" (by with_unfolding_all decide),
   by with_unfolding_all decide,
   by with_unfolding_all decide⟩

/-! ## C1: NaN normalization across the core boundary -/

mutual

theorem replaceNan_no_nan : ∀ v : PyVal, (replaceNanRecursive v).hasNaN = false
  | .num _ => rfl
  | .nan => rfl
  | .str _ => rfl
  | .bool _ => rfl
  | .null => rfl
  | .list xs => by
    simp only [replaceNanRecursive, PyVal.hasNaN]
    exact replaceNanList_no_nan xs
  | .dict kvs => by
    simp only [replaceNanRecursive, PyVal.hasNaN]
    exact replaceNanDict_no_nan kvs

theorem replaceNanList_no_nan : ∀ xs : PyList, (replaceNanList xs).hasNaN = false
  | .nil => rfl
  | .cons v t => by
    simp only [replaceNanList, PyList.hasNaN, Bool.or_eq_false_iff]
    exact ⟨replaceNan_no_nan v, replaceNanList_no_nan t⟩

theorem replaceNanDict_no_nan : ∀ kvs : PyDict, (replaceNanDict kvs).hasNaN = false
  | .nil => rfl
  | .cons k v t => by
    simp only [replaceNanDict, PyDict.hasNaN, Bool.or_eq_false_iff]
    exact ⟨replaceNan_no_nan v, replaceNanDict_no_nan t⟩

end

mutual

theorem convertNumpy_id : ∀ v : PyVal, convertNumpyToPython v = v
  | .num _ => rfl
  | .nan => rfl
  | .str _ => rfl
  | .bool _ => rfl
  | .null => rfl
  | .list xs => by
    simp only [convertNumpyToPython]
    rw [convertNumpyList_id xs]
  | .dict kvs => by
    simp only [convertNumpyToPython]
    rw [convertNumpyDict_id kvs]

theorem convertNumpyList_id : ∀ xs : PyList, convertNumpyList xs = xs
  | .nil => rfl
  | .cons v t => by
    simp only [convertNumpyList]
    rw [convertNumpy_id v, convertNumpyList_id t]

theorem convertNumpyDict_id : ∀ kvs : PyDict, convertNumpyDict kvs = kvs
  | .nil => rfl
  | .cons k v t => by
    simp only [convertNumpyDict]
    rw [convertNumpy_id v, convertNumpyDict_id t]

end

/-- C1 (counterexample): on the one-row table `{x: [5]}` the core's own
`build_charts` output — after the core applied `_convert_numpy_to_python`
— still contains a float NaN (the summary chart's standard deviation of a
single observation), so NaN normalization does not happen inside the core
boundary. -/
theorem C1_core_output_contains_nan :
    (createChartsData [("x", Col.numeric [some 5])] (PyVal.dict PyDict.nil)).hasNaN = true := by
  with_unfolding_all rfl

/-- C1 (amended): NaN normalization is the transport layer's doing, not the
core's: the route-level `replace_nan_recursive` leaves no NaN anywhere in
any payload, while the core's `_convert_numpy_to_python` returns every
payload unchanged (in particular it maps a NaN to itself). -/
theorem C1_nan_normalized_by_transport :
    (∀ v : PyVal, (replaceNanRecursive v).hasNaN = false) ∧
    (∀ v : PyVal, convertNumpyToPython v = v) :=
  ⟨replaceNan_no_nan, convertNumpy_id⟩

/-! ## C4 helper lemmas: centered sums, swaps, and the square-root bridge -/

theorem ssqF_nonneg (l : List (ℚ × ℚ)) : 0 ≤ ssqF l := by
  unfold ssqF
  apply List.sum_nonneg
  intro x hx
  obtain ⟨p, _, rfl⟩ := List.mem_map.mp hx
  positivity

theorem ssqS_nonneg (l : List (ℚ × ℚ)) : 0 ≤ ssqS l := by
  unfold ssqS
  apply List.sum_nonneg
  intro x hx
  obtain ⟨p, _, rfl⟩ := List.mem_map.mp hx
  positivity

theorem cssQ_nonneg (l : List ℚ) : 0 ≤ cssQ l := by
  unfold cssQ
  apply List.sum_nonneg
  intro x hx
  obtain ⟨a, _, rfl⟩ := List.mem_map.mp hx
  positivity

theorem map_swap_fst (l : List (ℚ × ℚ)) :
    (l.map Prod.swap).map (fun q => q.1) = l.map (fun q => q.2) := by
  rw [List.map_map]
  rfl

theorem map_swap_snd (l : List (ℚ × ℚ)) :
    (l.map Prod.swap).map (fun q => q.2) = l.map (fun q => q.1) := by
  rw [List.map_map]
  rfl

theorem covSum_swap (l : List (ℚ × ℚ)) : covSum (l.map Prod.swap) = covSum l := by
  unfold covSum
  rw [map_swap_fst, map_swap_snd, List.map_map]
  refine congrArg List.sum ?_
  refine List.map_congr_left ?_
  intro p _
  show (p.2 - meanQ (l.map (fun q => q.2))) * (p.1 - meanQ (l.map (fun q => q.1))) = _
  ring

theorem ssqF_swap (l : List (ℚ × ℚ)) : ssqF (l.map Prod.swap) = ssqS l := by
  unfold ssqF ssqS
  rw [map_swap_fst, List.map_map]
  rfl

theorem ssqS_swap (l : List (ℚ × ℚ)) : ssqS (l.map Prod.swap) = ssqF l := by
  unfold ssqF ssqS
  rw [map_swap_snd, List.map_map]
  rfl

theorem pairRows_swap (xs ys : List (Option ℚ)) :
    pairRows ys xs = (pairRows xs ys).map Prod.swap := by
  induction xs generalizing ys with
  | nil =>
    cases ys with
    | nil => rfl
    | cons y yt => cases y <;> rfl
  | cons x xt ih =>
    cases ys with
    | nil => cases x <;> rfl
    | cons y yt => cases x <;> cases y <;> simp [pairRows, ih, Prod.swap]

theorem pairRows_self (xs : List (Option ℚ)) :
    pairRows xs xs = (dropNone xs).map (fun a => (a, a)) := by
  induction xs with
  | nil => rfl
  | cons x xt ih => cases x <;> simp [pairRows, dropNone, List.filterMap_cons, ih]

theorem map_diag_fst (l : List ℚ) :
    (l.map (fun a => (a, a))).map (fun q => q.1) = l := by
  rw [List.map_map]
  exact List.map_id l

theorem map_diag_snd (l : List ℚ) :
    (l.map (fun a => (a, a))).map (fun q => q.2) = l := by
  rw [List.map_map]
  exact List.map_id l

theorem covSum_diag (l : List ℚ) : covSum (l.map (fun a => (a, a))) = cssQ l := by
  unfold covSum cssQ
  rw [map_diag_fst, map_diag_snd, List.map_map]
  refine congrArg List.sum ?_
  refine List.map_congr_left ?_
  intro a _
  show (a - meanQ l) * (a - meanQ l) = (a - meanQ l) ^ 2
  ring

theorem ssqF_diag (l : List ℚ) : ssqF (l.map (fun a => (a, a))) = cssQ l := by
  unfold ssqF cssQ
  rw [map_diag_fst, List.map_map]
  rfl

theorem ssqS_diag (l : List ℚ) : ssqS (l.map (fun a => (a, a))) = cssQ l := by
  unfold ssqS cssQ
  rw [map_diag_snd, List.map_map]
  rfl

theorem abs_div_sqrt_gt_iff (s d c : ℚ) (hd : 0 < d) (hc : 0 ≤ c) :
    ((c : ℝ) < |(s : ℝ) / Real.sqrt ((d : ℚ) : ℝ)| ↔ c ^ 2 * d < s ^ 2) := by
  have hdR : (0:ℝ) < ((d : ℚ) : ℝ) := by exact_mod_cast hd
  have hsq : (0:ℝ) < Real.sqrt ((d : ℚ) : ℝ) := Real.sqrt_pos.mpr hdR
  have hcR : (0:ℝ) ≤ (c : ℝ) := by exact_mod_cast hc
  rw [abs_div, abs_of_nonneg (Real.sqrt_nonneg _), lt_div_iff hsq]
  have hkey : ((c : ℝ) * Real.sqrt ((d : ℚ) : ℝ)) ^ 2 = (c : ℝ) ^ 2 * ((d : ℚ) : ℝ) := by
    rw [mul_pow, Real.sq_sqrt hdR.le]
  constructor
  · intro h
    have hmul : ((c : ℝ) * Real.sqrt ((d : ℚ) : ℝ)) ^ 2 < |(s : ℝ)| ^ 2 := by
      have h0 : (0:ℝ) ≤ (c : ℝ) * Real.sqrt ((d : ℚ) : ℝ) := by positivity
      nlinarith [h, h0]
    rw [hkey, sq_abs] at hmul
    exact_mod_cast hmul
  · intro h
    have hmul : ((c : ℝ) * Real.sqrt ((d : ℚ) : ℝ)) ^ 2 < |(s : ℝ)| ^ 2 := by
      rw [hkey, sq_abs]
      exact_mod_cast h
    exact lt_of_pow_lt_pow_left 2 (abs_nonneg _) hmul

theorem abs_corr_le_iff (s1 d1 s2 d2 : ℚ) (hd1 : 0 < d1) (hd2 : 0 < d2) :
    (|(s1 : ℝ) / Real.sqrt ((d1 : ℚ) : ℝ)| ≤ |(s2 : ℝ) / Real.sqrt ((d2 : ℚ) : ℝ)| ↔
      s1 ^ 2 * d2 ≤ s2 ^ 2 * d1) := by
  have hd1R : (0:ℝ) < ((d1 : ℚ) : ℝ) := by exact_mod_cast hd1
  have hd2R : (0:ℝ) < ((d2 : ℚ) : ℝ) := by exact_mod_cast hd2
  have hs1 : (0:ℝ) < Real.sqrt ((d1 : ℚ) : ℝ) := Real.sqrt_pos.mpr hd1R
  have hs2 : (0:ℝ) < Real.sqrt ((d2 : ℚ) : ℝ) := Real.sqrt_pos.mpr hd2R
  rw [abs_div, abs_div, abs_of_nonneg (Real.sqrt_nonneg ((d1 : ℚ) : ℝ)),
    abs_of_nonneg (Real.sqrt_nonneg ((d2 : ℚ) : ℝ)), div_le_div_iff hs1 hs2]
  constructor
  · intro h
    have hmul : (|(s1 : ℝ)| * Real.sqrt ((d2 : ℚ) : ℝ)) ^ 2 ≤
        (|(s2 : ℝ)| * Real.sqrt ((d1 : ℚ) : ℝ)) ^ 2 := by
      apply pow_le_pow_left (by positivity) h
    rw [mul_pow, mul_pow, Real.sq_sqrt hd1R.le, Real.sq_sqrt hd2R.le, sq_abs, sq_abs] at hmul
    exact_mod_cast hmul
  · intro h
    have hmul : (|(s1 : ℝ)| * Real.sqrt ((d2 : ℚ) : ℝ)) ^ 2 ≤
        (|(s2 : ℝ)| * Real.sqrt ((d1 : ℚ) : ℝ)) ^ 2 := by
      rw [mul_pow, mul_pow, Real.sq_sqrt hd1R.le, Real.sq_sqrt hd2R.le, sq_abs, sq_abs]
      exact_mod_cast h
    exact le_of_pow_le_pow_left (by norm_num) (by positivity) hmul

theorem corrEntryVals_symm (xs ys : List (Option ℚ)) :
    corrEntryVals ys xs = corrEntryVals xs ys := by
  unfold corrEntryVals
  rw [pairRows_swap xs ys, ssqF_swap, ssqS_swap, covSum_swap,
    mul_comm (ssqS (pairRows xs ys)) (ssqF (pairRows xs ys))]

theorem corrEntryVals_self (xs : List (Option ℚ)) (h : cssQ (dropNone xs) ≠ 0) :
    corrEntryVals xs xs = some 1 := by
  unfold corrEntryVals
  rw [pairRows_self, ssqF_diag, ssqS_diag, covSum_diag]
  rw [if_neg (mul_ne_zero h h)]
  have hpos : 0 < cssQ (dropNone xs) := lt_of_le_of_ne (cssQ_nonneg _) (Ne.symm h)
  congr 1
  have hcast : (((cssQ (dropNone xs) * cssQ (dropNone xs) : ℚ)) : ℝ) =
      ((cssQ (dropNone xs) : ℝ)) ^ 2 := by
    push_cast
    ring
  rw [hcast, Real.sqrt_sq (by exact_mod_cast hpos.le)]
  rw [div_self (by exact_mod_cast hpos.ne')]

theorem corrEntryVals_self_nan (xs : List (Option ℚ)) (h : cssQ (dropNone xs) = 0) :
    corrEntryVals xs xs = none := by
  unfold corrEntryVals
  rw [pairRows_self, ssqF_diag, ssqS_diag]
  rw [if_pos (by rw [h, mul_zero])]

theorem corrThresh_iff (xs ys : List (Option ℚ)) (c : ℚ) (hc : 0 ≤ c) :
    (corrThresh xs ys c = true ↔
      ∃ r : ℝ, corrEntryVals xs ys = some r ∧ (c : ℝ) < |r|) := by
  unfold corrThresh corrEntryVals
  rw [decide_eq_true_eq]
  constructor
  · rintro ⟨hD, hlt⟩
    rw [if_neg hD]
    have hDpos : 0 < ssqF (pairRows xs ys) * ssqS (pairRows xs ys) :=
      lt_of_le_of_ne (mul_nonneg (ssqF_nonneg _) (ssqS_nonneg _)) (Ne.symm hD)
    exact ⟨_, rfl, (abs_div_sqrt_gt_iff _ _ _ hDpos hc).mpr hlt⟩
  · rintro ⟨r, hr, habs⟩
    by_cases hD : ssqF (pairRows xs ys) * ssqS (pairRows xs ys) = 0
    · rw [if_pos hD] at hr
      cases hr
    · rw [if_neg hD] at hr
      injection hr with hr
      subst hr
      have hDpos : 0 < ssqF (pairRows xs ys) * ssqS (pairRows xs ys) :=
        lt_of_le_of_ne (mul_nonneg (ssqF_nonneg _) (ssqS_nonneg _)) (Ne.symm hD)
      exact ⟨hD, (abs_div_sqrt_gt_iff _ _ _ hDpos hc).mp habs⟩

theorem corrThresh_iff_of_entry (xs ys : List (Option ℚ)) (c : ℚ) (r : ℝ) (hc : 0 ≤ c)
    (he : corrEntryVals xs ys = some r) :
    (corrThresh xs ys c = true ↔ (c : ℝ) < |r|) := by
  rw [corrThresh_iff xs ys c hc]
  constructor
  · rintro ⟨r2, hr2, h⟩
    rw [he] at hr2
    injection hr2 with hr2
    rw [← hr2] at h
    exact h
  · intro h
    exact ⟨r, he, h⟩

/-! ## C4 helper lemmas: the strong list, lookups, and the running maximum -/

theorem mem_of_pairsAfter (l : List α) (p : α × α) (hp : p ∈ pairsAfter l) :
    p.1 ∈ l ∧ p.2 ∈ l := by
  induction l with
  | nil => cases hp
  | cons x xt ih =>
    unfold pairsAfter at hp
    rw [List.mem_append] at hp
    rcases hp with hp | hp
    · obtain ⟨y, hy, rfl⟩ := List.mem_map.mp hp
      exact ⟨List.mem_cons_self _ _, List.mem_cons_of_mem _ hy⟩
    · obtain ⟨h1, h2⟩ := ih hp
      exact ⟨List.mem_cons_of_mem _ h1, List.mem_cons_of_mem _ h2⟩

theorem lookup_eq_of_mem_nodup {β : Type _} {l : List (String × β)}
    (hnd : (l.map Prod.fst).Nodup) {a : String} {b : β} (h : (a, b) ∈ l) :
    List.lookup a l = some b := by
  induction l with
  | nil => cases h
  | cons p t ih =>
    obtain ⟨k, v⟩ := p
    rw [List.map_cons, List.nodup_cons] at hnd
    rcases List.mem_cons.mp h with heq | hmem
    · rw [Prod.mk.injEq] at heq
      obtain ⟨rfl, rfl⟩ := heq
      simp [List.lookup]
    · have hne : (a == k) = false := by
        rw [beq_eq_false_iff_ne]
        intro hcontra
        apply hnd.1
        rw [← hcontra]
        exact List.mem_map.mpr ⟨(a, b), hmem, rfl⟩
      rw [List.lookup, hne]
      exact ih hnd.2 hmem

theorem strongCorr_mem (t : Table) (e : StrongCorr) :
    (e ∈ strongCorrelations t ↔
      ∃ pq ∈ pairsAfter (numericCols t),
        e.var1 = pq.1.1 ∧ e.var2 = pq.2.1 ∧
        corrThresh pq.1.2 pq.2.2 (7/10) = true ∧
        e.covS = covSum (pairRows pq.1.2 pq.2.2) ∧
        e.denomS = ssqF (pairRows pq.1.2 pq.2.2) * ssqS (pairRows pq.1.2 pq.2.2) ∧
        e.strength = (if corrThresh pq.1.2 pq.2.2 (4/5) then "strong" else "moderate")) := by
  unfold strongCorrelations
  rw [List.mem_filterMap]
  constructor
  · rintro ⟨pq, hpq, hmk⟩
    by_cases ht : corrThresh pq.1.2 pq.2.2 (7/10)
    · rw [if_pos ht] at hmk
      injection hmk with hmk
      subst hmk
      exact ⟨pq, hpq, rfl, rfl, ht, rfl, rfl, rfl⟩
    · rw [if_neg ht] at hmk
      cases hmk
  · rintro ⟨pq, hpq, h1, h2, ht, h3, h4, h5⟩
    refine ⟨pq, hpq, ?_⟩
    rw [if_pos ht]
    obtain ⟨v1, v2, cS, dS, st⟩ := e
    simp only at h1 h2 h3 h4 h5
    rw [h1, h2, h3, h4, h5]

theorem strong_denom_pos (t : Table) (e : StrongCorr) (he : e ∈ strongCorrelations t) :
    0 < e.denomS := by
  obtain ⟨pq, _, _, _, ht, _, h4, _⟩ := (strongCorr_mem t e).mp he
  rw [corrThresh, decide_eq_true_eq] at ht
  rw [h4]
  exact lt_of_le_of_ne (mul_nonneg (ssqF_nonneg _) (ssqS_nonneg _)) (Ne.symm ht.1)

theorem crossmul_le_trans (c1 d1 c2 d2 c3 d3 : ℚ) (hd1 : 0 < d1) (hd2 : 0 < d2)
    (hd3 : 0 < d3) (h12 : c1 * d2 ≤ c2 * d1) (h23 : c2 * d3 ≤ c3 * d2) :
    c1 * d3 ≤ c3 * d1 := by
  have key : c1 * d3 * d2 ≤ c3 * d1 * d2 := by nlinarith
  exact le_of_mul_le_mul_right key hd2

theorem corrGt_false_iff (a b : StrongCorr) :
    (corrGt a b = false ↔ a.covS ^ 2 * b.denomS ≤ b.covS ^ 2 * a.denomS) := by
  unfold corrGt
  rw [decide_eq_false_iff_not, not_lt]

theorem corrGt_true_le (a b : StrongCorr) (h : corrGt a b = true) :
    b.covS ^ 2 * a.denomS ≤ a.covS ^ 2 * b.denomS := by
  unfold corrGt at h
  rw [decide_eq_true_eq] at h
  exact le_of_lt h

theorem foldl_corrGt_spec (tl : List StrongCorr) :
    ∀ h : StrongCorr, 0 < h.denomS → (∀ f ∈ tl, 0 < f.denomS) →
      (tl.foldl (fun best e => if corrGt e best then e else best) h ∈ h :: tl) ∧
      corrGt h (tl.foldl (fun best e => if corrGt e best then e else best) h) = false ∧
      (∀ f ∈ tl, corrGt f (tl.foldl (fun best e => if corrGt e best then e else best) h)
        = false) := by
  induction tl with
  | nil =>
    intro h _ _
    refine ⟨List.mem_cons_self _ _, ?_, ?_⟩
    · rw [corrGt_false_iff]
      exact le_refl _
    · intro f hf
      cases hf
  | cons a tl2 ih =>
    intro h hd htl
    have hda : 0 < a.denomS := htl a (List.mem_cons_self _ _)
    have hdtl : ∀ f ∈ tl2, 0 < f.denomS := fun f hf => htl f (List.mem_cons_of_mem _ hf)
    by_cases hga : corrGt a h = true
    · -- the head is replaced by `a`
      have hstep : (a :: tl2).foldl (fun best e => if corrGt e best then e else best) h =
          tl2.foldl (fun best e => if corrGt e best then e else best) a := by
        simp [List.foldl_cons, hga]
      obtain ⟨hm, hbest, hall⟩ := ih a hda hdtl
      have hdres : 0 < (tl2.foldl (fun best e => if corrGt e best then e else best) a).denomS := by
        rcases List.mem_cons.mp hm with heq | hmem
        · rw [heq]; exact hda
        · exact hdtl _ hmem
      rw [hstep]
      refine ⟨?_, ?_, ?_⟩
      · rcases List.mem_cons.mp hm with heq | hmem
        · rw [heq]
          exact List.mem_cons_of_mem _ (List.mem_cons_self _ _)
        · exact List.mem_cons_of_mem _ (List.mem_cons_of_mem _ hmem)
      · rw [corrGt_false_iff]
        exact crossmul_le_trans _ _ _ _ _ _ hd hda hdres
          (corrGt_true_le a h hga) ((corrGt_false_iff _ _).mp hbest)
      · intro f hf
        rcases List.mem_cons.mp hf with rfl | hmem
        · exact hbest
        · exact hall f hmem
    · -- the head `h` survives
      have hga' : corrGt a h = false := by
        cases hab : corrGt a h
        · rfl
        · exact absurd hab hga
      have hstep : (a :: tl2).foldl (fun best e => if corrGt e best then e else best) h =
          tl2.foldl (fun best e => if corrGt e best then e else best) h := by
        simp [List.foldl_cons, hga']
      obtain ⟨hm, hbest, hall⟩ := ih h hd hdtl
      have hdres : 0 < (tl2.foldl (fun best e => if corrGt e best then e else best) h).denomS := by
        rcases List.mem_cons.mp hm with heq | hmem
        · rw [heq]; exact hd
        · exact hdtl _ hmem
      rw [hstep]
      refine ⟨?_, ?_, ?_⟩
      · rcases List.mem_cons.mp hm with heq | hmem
        · rw [heq]
          exact List.mem_cons_self _ _
        · exact List.mem_cons_of_mem _ (List.mem_cons_of_mem _ hmem)
      · exact hbest
      · intro f hf
        rcases List.mem_cons.mp hf with rfl | hmem
        · rw [corrGt_false_iff]
          exact crossmul_le_trans _ _ _ _ _ _ hda hd hdres
            ((corrGt_false_iff _ _).mp hga') ((corrGt_false_iff _ _).mp hbest)
        · exact hall f hmem

/-! ## C4: the correlation facet -/

/-- C4 (counterexample): a table with two numeric columns, one of them
constant, qualifies for the claim (two numeric columns) but its correlation
matrix does not have a unit diagonal: the diagonal entry of the constant
column is NaN (`none`), because the pairwise centered sum of squares is
zero. -/
theorem C4_nan_diagonal :
    2 ≤ (numericCols [("a", Col.numeric [some 1, some 2]),
        ("b", Col.numeric [some 5, some 5])]).length ∧
    corrMatrixEntry [("a", Col.numeric [some 1, some 2]),
        ("b", Col.numeric [some 5, some 5])] "b" "b" ≠ some 1 := by
  constructor
  · decide
  · have hb : numericColValues [("a", Col.numeric [some 1, some 2]),
        ("b", Col.numeric [some 5, some 5])] "b" = some [some 5, some 5] := by
      decide
    unfold corrMatrixEntry
    rw [hb]
    show corrEntryVals [some 5, some 5] [some 5, some 5] ≠ some 1
    unfold corrEntryVals
    rw [if_pos (by with_unfolding_all decide)]
    simp

/-- C4 (amended): for every table with at least two uniquely-named numeric
columns — including tables containing constant or single-observation
columns — the correlation matrix is symmetric; each diagonal entry obeys
the dichotomy: it is 1 when that column's centered sum of squares over its
non-null values is nonzero, and the undefined NaN entry (`none`) when it
is zero (a constant or single-observation column — see the
counterexample); `strong_correlations` contains exactly the ordered pairs
(`i < j` in column order) whose correlation `r` exists with `|r| > 0.7`,
each tagged "strong" if `|r| > 0.8` else "moderate"; and
`highest_correlation` is a listed pair of maximal `|r|`, or `None` when
the list is empty. -/
theorem C4_correlation_facet (t : Table)
    (_h2 : 2 ≤ (numericCols t).length)
    (hnd : (numericColNames t).Nodup) :
    (∀ c1 c2 : String, corrMatrixEntry t c1 c2 = corrMatrixEntry t c2 c1) ∧
    (∀ p ∈ numericCols t, corrMatrixEntry t p.1 p.1 =
      (if cssQ (dropNone p.2) = 0 then none else some 1)) ∧
    (∀ e ∈ strongCorrelations t,
      ∃ pq ∈ pairsAfter (numericCols t),
        e.var1 = pq.1.1 ∧ e.var2 = pq.2.1 ∧
        ∃ r : ℝ, corrMatrixEntry t e.var1 e.var2 = some r ∧ (7/10 : ℝ) < |r| ∧
          StrongCorr.corr e = r ∧
          e.strength = (if (4/5 : ℝ) < |r| then "strong" else "moderate")) ∧
    (∀ pq ∈ pairsAfter (numericCols t), ∀ r : ℝ,
      corrMatrixEntry t pq.1.1 pq.2.1 = some r → (7/10 : ℝ) < |r| →
      ∃ e ∈ strongCorrelations t, e.var1 = pq.1.1 ∧ e.var2 = pq.2.1) ∧
    (strongCorrelations t = [] → highestCorrelation t = none) ∧
    (∀ e0 tl0, strongCorrelations t = e0 :: tl0 →
      ∃ e, highestCorrelation t = some e ∧ e ∈ strongCorrelations t ∧
        ∀ f ∈ strongCorrelations t, |StrongCorr.corr f| ≤ |StrongCorr.corr e|) := by
  have hndF : ((numericCols t).map Prod.fst).Nodup := hnd
  refine ⟨?_, ?_, ?_, ?_, ?_, ?_⟩
  · -- symmetry
    intro c1 c2
    unfold corrMatrixEntry
    rcases numericColValues t c1 with _ | v1 <;> rcases numericColValues t c2 with _ | v2
    · rfl
    · rfl
    · rfl
    · exact corrEntryVals_symm v2 v1
  · -- diagonal dichotomy
    intro p hp
    obtain ⟨n1, v1⟩ := p
    have hl : numericColValues t n1 = some v1 := lookup_eq_of_mem_nodup hndF hp
    show corrMatrixEntry t n1 n1 = if cssQ (dropNone v1) = 0 then none else some 1
    unfold corrMatrixEntry
    rw [hl]
    by_cases hz : cssQ (dropNone v1) = 0
    · rw [if_pos hz]
      exact corrEntryVals_self_nan v1 hz
    · rw [if_neg hz]
      exact corrEntryVals_self v1 hz
  · -- soundness of the strong list
    intro e he
    obtain ⟨pq, hpq, h1, h2, ht, h3, h4, h5⟩ := (strongCorr_mem t e).mp he
    obtain ⟨⟨n1, v1⟩, ⟨n2, v2⟩⟩ := pq
    simp only at h1 h2 h3 h4 h5 ht
    have hm := mem_of_pairsAfter _ _ hpq
    have hl1 : numericColValues t n1 = some v1 := lookup_eq_of_mem_nodup hndF hm.1
    have hl2 : numericColValues t n2 = some v2 := lookup_eq_of_mem_nodup hndF hm.2
    have hD : ssqF (pairRows v1 v2) * ssqS (pairRows v1 v2) ≠ 0 := by
      rw [corrThresh, decide_eq_true_eq] at ht
      exact ht.1
    have hce : corrEntryVals v1 v2 = some ((covSum (pairRows v1 v2) : ℝ) /
        Real.sqrt ((ssqF (pairRows v1 v2) * ssqS (pairRows v1 v2) : ℚ) : ℝ)) := by
      unfold corrEntryVals
      rw [if_neg hD]
    refine ⟨((n1, v1), (n2, v2)), hpq, h1, h2,
       (covSum (pairRows v1 v2) : ℝ) /
        Real.sqrt ((ssqF (pairRows v1 v2) * ssqS (pairRows v1 v2) : ℚ) : ℝ), ?_, ?_, ?_, ?_⟩
    · rw [h1, h2]
      unfold corrMatrixEntry
      rw [hl1, hl2]
      exact hce
    · have habs := (corrThresh_iff_of_entry v1 v2 (7/10) _ (by norm_num) hce).mp ht
      rw [show (((7:ℚ)/10 : ℚ) : ℝ) = (7/10 : ℝ) from by norm_num] at habs
      exact habs
    · unfold StrongCorr.corr
      rw [h3, h4]
    · rw [h5]
      by_cases hb : corrThresh v1 v2 (4/5) = true
      · rw [if_pos hb, if_pos]
        have h45 := (corrThresh_iff_of_entry v1 v2 (4/5) _ (by norm_num) hce).mp hb
        rw [show (((4:ℚ)/5 : ℚ) : ℝ) = (4/5 : ℝ) from by norm_num] at h45
        exact h45
      · rw [if_neg hb, if_neg]
        intro hlt
        apply hb
        apply (corrThresh_iff_of_entry v1 v2 (4/5) _ (by norm_num) hce).mpr
        rw [show (((4:ℚ)/5 : ℚ) : ℝ) = (4/5 : ℝ) from by norm_num]
        exact hlt
  · -- completeness of the strong list
    intro pq hpq r hent habs
    obtain ⟨⟨n1, v1⟩, ⟨n2, v2⟩⟩ := pq
    simp only at hent habs ⊢
    have hm := mem_of_pairsAfter _ _ hpq
    have hl1 : numericColValues t n1 = some v1 := lookup_eq_of_mem_nodup hndF hm.1
    have hl2 : numericColValues t n2 = some v2 := lookup_eq_of_mem_nodup hndF hm.2
    have hce : corrEntryVals v1 v2 = some r := by
      unfold corrMatrixEntry at hent
      rw [hl1, hl2] at hent
      exact hent
    have ht : corrThresh v1 v2 (7/10) = true :=
      (corrThresh_iff_of_entry v1 v2 (7/10) r (by norm_num) hce).mpr
        (by rw [show (((7:ℚ)/10 : ℚ) : ℝ) = (7/10 : ℝ) from by norm_num]; exact habs)
    refine ⟨⟨n1, n2, covSum (pairRows v1 v2),
        ssqF (pairRows v1 v2) * ssqS (pairRows v1 v2),
        if corrThresh v1 v2 (4/5) then "strong" else "moderate"⟩, ?_, rfl, rfl⟩
    exact (strongCorr_mem t _).mpr ⟨((n1, v1), (n2, v2)), hpq, rfl, rfl, ht, rfl, rfl, rfl⟩
  · -- empty strong list
    intro h
    unfold highestCorrelation
    rw [h]
  · -- non-empty strong list: the first maximal entry
    intro e0 tl0 hS
    have hd0 : 0 < e0.denomS := strong_denom_pos t e0 (by rw [hS]; exact List.mem_cons_self _ _)
    have hdtl : ∀ f ∈ tl0, 0 < f.denomS := fun f hf =>
      strong_denom_pos t f (by rw [hS]; exact List.mem_cons_of_mem _ hf)
    obtain ⟨hm, hbest, hall⟩ := foldl_corrGt_spec tl0 e0 hd0 hdtl
    have hres_mem : tl0.foldl (fun best e => if corrGt e best then e else best) e0 ∈
        strongCorrelations t := by
      rw [hS]
      exact hm
    refine ⟨tl0.foldl (fun best e => if corrGt e best then e else best) e0, ?_, hres_mem, ?_⟩
    · unfold highestCorrelation
      rw [hS]
    · intro f hf
      rw [hS] at hf
      have hdres := strong_denom_pos t _ hres_mem
      have hdf : 0 < f.denomS := strong_denom_pos t f (by rw [hS]; exact hf)
      have hfle : f.covS ^ 2 *
          (tl0.foldl (fun best e => if corrGt e best then e else best) e0).denomS ≤
          (tl0.foldl (fun best e => if corrGt e best then e else best) e0).covS ^ 2 *
            f.denomS := by
        rcases List.mem_cons.mp hf with rfl | hmem
        · exact (corrGt_false_iff _ _).mp hbest
        · exact (corrGt_false_iff _ _).mp (hall f hmem)
      unfold StrongCorr.corr
      exact (abs_corr_le_iff _ _ _ _ hdf hdres).mpr hfle

/-- Witness for C4: on a table where `b = 2·a` exactly, the diagonal
dichotomy at the non-constant column `b` resolves to 1. -/
theorem C4_correlation_facet_witness :
    corrMatrixEntry [("a", Col.numeric [some 1, some 2, some 3]),
        ("b", Col.numeric [some 2, some 4, some 6])] "b" "b" = some 1 := by
  have h := (C4_correlation_facet
      [("a", Col.numeric [some 1, some 2, some 3]),
       ("b", Col.numeric [some 2, some 4, some 6])]
      (by decide) (by decide)).2.1
    ("b", [some 2, some 4, some 6]) (by decide)
  rwa [if_neg (by with_unfolding_all decide)] at h

end InsightMate
